import Mathlib

/-!
Verification development for the ocrchestra repository (Go).

The embedding below translates, function by function, the source files
`pkg/hocr/types.go`, the hOCR parsing file (package hocr), `pkg/hocr/helpers.go`
together with its embedded template `templates/hocr.tmpl`, `pkg/pdfocr/detect.go`,
`pkg/pdfocr/pdfocr.go`, `pkg/pdfocr/create.go`, and the pdfocr drawing and
helper files (package pdfocr).

Conventions used throughout:
- Go `float64` values are modelled as `ℚ`.  Every arithmetic step performed by
  the source (coordinate remapping, font-size scaling) is exact rational
  arithmetic there as well, up to rounding; decimal printing and parsing of
  coordinates is modelled exactly on the subdomain of integer-valued
  coordinates, which `float64` represents exactly below 2^53.
- Go maps used only through key lookup and overwrite are modelled as
  association lists with last-write-wins update.
- External libraries (`golang.org/x/net/html`, `text/template`,
  `codeberg.org/go-pdf/fpdf`, `image`, `regexp`) are modelled by executable
  Lean functions restricted to the behaviour the repository exercises: the
  HTML reader handles the markup sublanguage that the repository's own
  template emits (elements, quoted attributes, comments, doctype, character
  entities), the template engine is unfolded into plain string concatenation
  following `templates/hocr.tmpl` literally, font metrics are an abstract
  parameter `unit : String → ℚ` with `GetStringWidth s = fontSize * unit s`
  as in fpdf, and image decoding is recorded as an oracle field on the image
  datum.
-/

namespace gostr

/-- Go `unicode.IsSpace` restricted to the characters that actually occur in
this development (ASCII whitespace plus NEL and NBSP, exactly the Latin-1
cases listed in the Go documentation). -/
def isSpaceGo (c : Char) : Bool :=
  c = ' ' ∨ c = '\t' ∨ c = '\n' ∨ c = (Char.ofNat 11) ∨ c = (Char.ofNat 12) ∨
  c = '\r' ∨ c = (Char.ofNat 133) ∨ c = (Char.ofNat 160)

/-- Whitespace class of Go's regexp `\s`, namely `[\t\n\f\r ]`. -/
def isRegexSpace (c : Char) : Bool :=
  c = ' ' ∨ c = '\t' ∨ c = '\n' ∨ c = (Char.ofNat 12) ∨ c = '\r'

/-- Go `strings.TrimSpace` on a character list. -/
def trimSpaceList (cs : List Char) : List Char :=
  ((cs.dropWhile isSpaceGo).reverse.dropWhile isSpaceGo).reverse

/-- Go `strings.TrimSpace`. -/
def trimSpace (s : String) : String :=
  String.mk (trimSpaceList s.toList)

/-- Splitting a character list into maximal runs of non-separator
characters, the shared core of Go `strings.Fields` and
`strings.FieldsFunc`; `cur` is the token in progress, reversed. -/
def splitRunsAux (sep : Char → Bool) (cur : List Char) :
    List Char → List (List Char)
  | [] => if cur.isEmpty then [] else [cur.reverse]
  | c :: cs =>
    if sep c then
      if cur.isEmpty then splitRunsAux sep [] cs
      else cur.reverse :: splitRunsAux sep [] cs
    else splitRunsAux sep (c :: cur) cs

/-- Maximal runs separated by `sep` characters. -/
def splitRuns (sep : Char → Bool) (l : List Char) : List (List Char) :=
  splitRunsAux sep [] l

/-- Splitting a character list into maximal runs separated by whitespace,
the core of Go `strings.Fields`. -/
def fieldsList (l : List Char) : List (List Char) :=
  splitRuns isSpaceGo l

/-- Go `strings.Fields`. -/
def fields (s : String) : List String :=
  (fieldsList s.toList).map String.mk

/-- Does list `pat` occur as a prefix of `l`? -/
def listStartsWith [DecidableEq α] : List α → List α → Bool
  | _, [] => true
  | [], _ :: _ => false
  | a :: l, b :: pat => (if a = b then true else false) && listStartsWith l pat

/-- Does list `pat` occur as a contiguous sublist of `l`? -/
def listContains [DecidableEq α] (l pat : List α) : Bool :=
  match l with
  | [] => listStartsWith [] pat
  | _ :: rest => listStartsWith l pat || listContains rest pat

/-- Go `strings.Contains`. -/
def containsSub (s pat : String) : Bool :=
  listContains s.toList pat.toList

/-- Go `strings.HasPrefix`. -/
def hasPrefixGo (s pat : String) : Bool :=
  listStartsWith s.toList pat.toList

/-- Strip a literal from the front of a character list, returning the
remainder when it is present. -/
def dropLiteral [DecidableEq α] : List α → List α → Option (List α)
  | l, [] => some l
  | [], _ :: _ => none
  | a :: l, b :: pat => if a = b then dropLiteral l pat else none

/-- Go `strings.ToLower` (the repository only relies on its ASCII behaviour,
and no character outside ASCII lowers onto the letters of `"ocr"`). -/
def toLowerGo (s : String) : String :=
  String.mk (s.toList.map Char.toLower)

/-- Decimal digits of a natural number. -/
def natDigits (n : Nat) : List Char :=
  Nat.toDigits 10 n

/-- Decimal rendering of an integer, as Go prints `int` values. -/
def printInt (i : Int) : String :=
  if i < 0 then "-" ++ String.mk (natDigits i.natAbs)
  else String.mk (natDigits i.natAbs)

/-- Parse an unsigned decimal digit run. -/
def parseDigits : List Char → Option Nat
  | [] => none
  | cs =>
    if cs.all (fun c => c.isDigit) then
      some (cs.foldl (fun acc c => acc * 10 + (c.toNat - 48)) 0)
    else none

/-- Go `strconv.Atoi`, modelled on decimal numerals; on any parse failure Go
returns the zero value, which the repository then uses because it discards
the error (`page.PageNumber, _ = strconv.Atoi ...`). -/
def atoiOrZero (s : String) : Int :=
  match s.toList with
  | '-' :: rest => match parseDigits rest with
    | some n => -(n : Int)
    | none => 0
  | '+' :: rest => match parseDigits rest with
    | some n => (n : Int)
    | none => 0
  | cs => match parseDigits cs with
    | some n => (n : Int)
    | none => 0

/-- Go `strconv.ParseFloat`, modelled on plain decimal numerals (optional
sign, integer digits, optional fraction).  The repository feeds it bbox and
confidence tokens; exponent and hexadecimal forms are not modelled. -/
def parseFloatQ (s : String) : Option ℚ :=
  let signed : List Char → Option ℚ := fun cs =>
    match cs.span (fun c => c.isDigit) with
    | (intPart, rest) =>
      match rest with
      | [] => (parseDigits intPart).map (fun n => (n : ℚ))
      | '.' :: fracPart =>
        match parseDigits intPart, parseDigits fracPart with
        | some n, some f =>
          some ((n : ℚ) + (f : ℚ) / ((10 : ℚ) ^ fracPart.length))
        | _, _ => none
      | _ => none
  match s.toList with
  | '-' :: rest => (signed rest).map (fun q => -q)
  | '+' :: rest => signed rest
  | cs => signed cs

/-- `strconv.ParseFloat` with the error discarded, yielding Go's zero value
on failure, exactly as `ParseBoundingBoxFromTitle` uses it. -/
def parseFloatOrZero (s : String) : ℚ :=
  (parseFloatQ s).getD 0

/-- Printing of a `float64` by Go's default (shortest round-trip) formatting,
modelled exactly on integer-valued coordinates; non-integer rationals are
rendered as `num/den` and only arise outside the modelled subdomain. -/
def printFloatGo (q : ℚ) : String :=
  if q.den = 1 then printInt q.num else toString q

/-- Split on every occurrence of a separator character, keeping empty
segments, Go `strings.Split` with a one-character separator; `cur` is the
segment in progress, reversed. -/
def splitOnCharAux (sep : Char) (cur : List Char) :
    List Char → List (List Char)
  | [] => [cur.reverse]
  | c :: cs =>
    if c = sep then cur.reverse :: splitOnCharAux sep [] cs
    else splitOnCharAux sep (c :: cur) cs

/-- Go `strings.Split` with a one-character separator. -/
def splitOnChar (sep : Char) (s : String) : List String :=
  (splitOnCharAux sep [] s.toList).map String.mk

/-- Go `strings.Join`. -/
def joinWith (sep : String) : List String → String
  | [] => ""
  | [s] => s
  | s :: rest => s ++ sep ++ joinWith sep rest

end gostr

namespace hocr

open gostr

/-- `BoundingBox` from `pkg/hocr/types.go`; the four `float64` coordinates are
modelled as rationals. -/
structure BoundingBox where
  x1 : ℚ
  y1 : ℚ
  x2 : ℚ
  y2 : ℚ
deriving DecidableEq, Repr

/-- `NewBoundingBox` from `pkg/hocr/types.go`. -/
def NewBoundingBox (x1 y1 x2 y2 : ℚ) : BoundingBox :=
  ⟨x1, y1, x2, y2⟩

/-- `Word` from `pkg/hocr/types.go`.  The metadata map is an association
list (the source only writes and reads it by key). -/
structure Word where
  id : String := ""
  text : String := ""
  bbox : BoundingBox := ⟨0, 0, 0, 0⟩
  confidence : ℚ := 0
  lang : String := ""
  metadata : List (String × String) := []
deriving DecidableEq, Repr

/-- `Line` from `pkg/hocr/types.go`. -/
structure Line where
  id : String := ""
  lang : String := ""
  bbox : BoundingBox := ⟨0, 0, 0, 0⟩
  baseline : String := ""
  words : List Word := []
  metadata : List (String × String) := []
deriving DecidableEq, Repr

/-- `Paragraph` from `pkg/hocr/types.go`. -/
structure Paragraph where
  id : String := ""
  lang : String := ""
  bbox : BoundingBox := ⟨0, 0, 0, 0⟩
  lines : List Line := []
  words : List Word := []
  metadata : List (String × String) := []
deriving DecidableEq, Repr

/-- `Area` from `pkg/hocr/types.go`. -/
structure Area where
  id : String := ""
  lang : String := ""
  bbox : BoundingBox := ⟨0, 0, 0, 0⟩
  paragraphs : List Paragraph := []
  lines : List Line := []
  words : List Word := []
  metadata : List (String × String) := []
deriving DecidableEq, Repr

/-- `Page` from `pkg/hocr/types.go`. -/
structure Page where
  id : String := ""
  title : String := ""
  pageNumber : Int := 0
  imageName : String := ""
  lang : String := ""
  bbox : BoundingBox := ⟨0, 0, 0, 0⟩
  areas : List Area := []
  paragraphs : List Paragraph := []
  lines : List Line := []
  metadata : List (String × String) := []
deriving DecidableEq, Repr

/-- `HOCR` from `pkg/hocr/types.go`. -/
structure HOCR where
  title : String := ""
  description : String := ""
  language : String := ""
  metadata : List (String × String) := []
  pages : List Page := []
deriving DecidableEq, Repr

/-- Last-write-wins update of an association list, the behaviour of a Go map
assignment `m[k] = v` observed through later lookups. -/
def upsert (m : List (String × String)) (k v : String) : List (String × String) :=
  if m.any (fun p => p.1 = k) then
    m.map (fun p => if p.1 = k then (k, v) else p)
  else m ++ [(k, v)]

/-- Key lookup in an association list, Go's `m[k]` with its ok-flag. -/
def lookup (m : List (String × String)) (k : String) : Option String :=
  (m.find? (fun p => p.1 = k)).map Prod.snd

/-- `ParseTitle` from the hOCR parsing file: split the title attribute on
`;`, trim each segment, and let the first whitespace-delimited token of a
segment be the key and the remaining tokens its values.  The resulting Go map
is modelled as an association list updated in segment order. -/
def ParseTitle (title : String) : List (String × List String) :=
  (splitOnChar ';' title).foldl
    (fun acc part =>
      let part := trimSpace part
      if part = "" then acc
      else
        match fields part with
        | [] => acc
        | key :: values =>
          if acc.any (fun p => p.1 = key) then
            acc.map (fun p => if p.1 = key then (key, values) else p)
          else acc ++ [(key, values)])
    []

/-- Lookup of a recognized key in a parsed title, Go's `props[k]`. -/
def titleLookup (props : List (String × List String)) (k : String) :
    Option (List String) :=
  (props.find? (fun p => p.1 = k)).map Prod.snd

/-- `ParseBoundingBoxFromTitle` from the hOCR parsing file: take the `bbox`
values when at least four are present, parsing each with `strconv.ParseFloat`
and a discarded error. -/
def ParseBoundingBoxFromTitle (title : String) : Option BoundingBox :=
  match titleLookup (ParseTitle title) "bbox" with
  | some bbox =>
    if bbox.length ≥ 4 then
      some (NewBoundingBox
        (parseFloatOrZero (bbox.get! 0)) (parseFloatOrZero (bbox.get! 1))
        (parseFloatOrZero (bbox.get! 2)) (parseFloatOrZero (bbox.get! 3)))
    else none
  | none => none

end hocr

namespace gostr

/-- First index at which `pat` occurs in `l`, Go `strings.Index`. -/
def listIndexOf [DecidableEq α] : List α → List α → Option Nat
  | l, pat =>
    if listStartsWith l pat then some 0
    else match l with
      | [] => none
      | _ :: rest => (listIndexOf rest pat).map Nat.succ

/-- Splitting into maximal runs of non-separator characters, Go
`strings.FieldsFunc`. -/
def fieldsFuncList (sep : Char → Bool) (l : List Char) : List (List Char) :=
  splitRuns sep l

end gostr

namespace hocr

/-- A node of the generic markup tree produced by the external HTML parsing
library (`golang.org/x/net/html`): either an element carrying a tag name,
attributes in document order and children, or a text node.  Doctype and
comment nodes are not represented; the repository's tree walk never
distinguishes them from absent nodes. -/
inductive HNode where
  | elem (tag : String) (attrs : List (String × String)) (children : List HNode)
  | text (data : String)

/-- Attributes of a node (empty for text nodes). -/
def HNode.attrList : HNode → List (String × String)
  | .elem _ attrs _ => attrs
  | .text _ => []

/-- Children of a node (empty for text nodes). -/
def HNode.childList : HNode → List HNode
  | .elem _ _ children => children
  | .text _ => []

/-- The `Data` field of an `html.Node`: the tag name of an element or the
content of a text node. -/
def HNode.dataOf : HNode → String
  | .elem tag _ _ => tag
  | .text s => s

/-- `getAttrVal` from the hOCR parsing file: first attribute with the given
key, or the empty string. -/
def getAttrVal (n : HNode) (attrName : String) : String :=
  match n.attrList.find? (fun a => a.1 = attrName) with
  | some a => a.2
  | none => ""

mutual

/-- `extractTextContent` from the hOCR parsing file: a text node contributes
its trimmed data, an element the trimmed concatenation of its children's
extracted text. -/
def extractTextContent : HNode → String
  | .text s => gostr.trimSpace s
  | .elem _ _ children => gostr.trimSpace (extractTextContentList children)

/-- Concatenation of `extractTextContent` over a child list. -/
def extractTextContentList : List HNode → String
  | [] => ""
  | c :: cs => extractTextContent c ++ extractTextContentList cs

end

/-- String.intercalate over values of a title property, Go
`strings.Join(v, " ")`. -/
def joinSpace (v : List String) : String :=
  gostr.joinWith " " v

/-- The metadata-filling loop shared by the element processors: every title
property whose key passes the filter is joined with spaces and stored. -/
def metaInsert (keep : String → Bool) (props : List (String × List String))
    (m : List (String × String)) : List (String × String) :=
  props.foldl
    (fun m p => if keep p.1 then upsert m p.1 (joinSpace p.2) else m) m

/-- `processWord` from the hOCR parsing file. -/
def processWord (n : HNode) : Word :=
  let w : Word := {}
  let w := n.attrList.foldl
    (fun (w : Word) attr =>
      if attr.1 = "id" then { w with id := attr.2 }
      else if attr.1 = "lang" then { w with lang := attr.2 }
      else if attr.1 = "title" then
        let w := match ParseBoundingBoxFromTitle attr.2 with
          | some bb => { w with bbox := bb }
          | none => w
        let props := ParseTitle attr.2
        let w := match titleLookup props "x_wconf" with
          | some (c :: _) => { w with confidence := gostr.parseFloatOrZero c }
          | _ => w
        let w := match titleLookup props "lang" with
          | some (l :: _) => { w with lang := l }
          | _ => w
        { w with metadata := (metaInsert
            (fun k => k ≠ "bbox" ∧ k ≠ "x_wconf" ∧ k ≠ "lang")
            props w.metadata) }
      else w)
    w
  if n.childList.isEmpty then w else { w with text := extractTextContent n }

mutual

/-- The `extractWords` closure of `processLine`: collect every descendant
element whose `class` attribute contains `"ocrx_word"`, stopping the descent
at such an element. -/
def extractWordsN (n : HNode) : List Word :=
  match n with
  | .elem _ attrs children =>
    if attrs.any (fun a => a.1 = "class" ∧ gostr.containsSub a.2 "ocrx_word") then
      [processWord n]
    else extractWordsL children
  | .text _ => []

/-- `extractWords` over a child list. -/
def extractWordsL : List HNode → List Word
  | [] => []
  | c :: cs => extractWordsN c ++ extractWordsL cs

end

/-- `processLine` from the hOCR parsing file. -/
def processLine (n : HNode) : Line :=
  let line : Line := {}
  let line := n.attrList.foldl
    (fun (line : Line) attr =>
      if attr.1 = "id" then { line with id := attr.2 }
      else if attr.1 = "lang" then { line with lang := attr.2 }
      else if attr.1 = "title" then
        let line := match ParseBoundingBoxFromTitle attr.2 with
          | some bb => { line with bbox := bb }
          | none => line
        let props := ParseTitle attr.2
        let line := match titleLookup props "baseline" with
          | some (b :: bs) => { line with baseline := joinSpace (b :: bs) }
          | _ => line
        { line with metadata := (metaInsert
            (fun k => k ≠ "bbox" ∧ k ≠ "baseline")
            props line.metadata) }
      else line)
    line
  { line with words := extractWordsL n.childList }

mutual

/-- The `collectNodes` closure of `processParagraph`: classify descendants as
line or word nodes by their `class` attribute, stopping the descent at a
classified node. -/
def collectParN (n : HNode) : List HNode × List HNode :=
  match n with
  | .elem _ _ children =>
    let cls := getAttrVal n "class"
    if gostr.containsSub cls "ocr_line" then ([n], [])
    else if gostr.containsSub cls "ocrx_word" then ([], [n])
    else collectParL children
  | .text _ => ([], [])

/-- Paragraph-level `collectNodes` over a child list. -/
def collectParL : List HNode → List HNode × List HNode
  | [] => ([], [])
  | c :: cs =>
    let a := collectParN c
    let b := collectParL cs
    (a.1 ++ b.1, a.2 ++ b.2)

end

/-- `processParagraph` from the hOCR parsing file. -/
def processParagraph (n : HNode) : Paragraph :=
  let par : Paragraph := {}
  let par := n.attrList.foldl
    (fun (par : Paragraph) attr =>
      if attr.1 = "id" then { par with id := attr.2 }
      else if attr.1 = "lang" then { par with lang := attr.2 }
      else if attr.1 = "title" then
        let par := match ParseBoundingBoxFromTitle attr.2 with
          | some bb => { par with bbox := bb }
          | none => par
        let props := ParseTitle attr.2
        { par with metadata := (metaInsert (fun k => k ≠ "bbox") props par.metadata) }
      else par)
    par
  let collected := collectParL n.childList
  { par with
    lines := collected.1.map processLine
    words := collected.2.map processWord }

mutual

/-- The `collectNodes` closure of `processArea`: classify descendants as
paragraph, line or word nodes, stopping the descent at a classified node. -/
def collectAreaN (n : HNode) : List HNode × List HNode × List HNode :=
  match n with
  | .elem _ _ children =>
    let cls := getAttrVal n "class"
    if gostr.containsSub cls "ocr_par" then ([n], [], [])
    else if gostr.containsSub cls "ocr_line" then ([], [n], [])
    else if gostr.containsSub cls "ocrx_word" then ([], [], [n])
    else collectAreaL children
  | .text _ => ([], [], [])

/-- Area-level `collectNodes` over a child list. -/
def collectAreaL : List HNode → List HNode × List HNode × List HNode
  | [] => ([], [], [])
  | c :: cs =>
    let a := collectAreaN c
    let b := collectAreaL cs
    (a.1 ++ b.1, a.2.1 ++ b.2.1, a.2.2 ++ b.2.2)

end

/-- `processArea` from the hOCR parsing file. -/
def processArea (n : HNode) : Area :=
  let area : Area := {}
  let area := n.attrList.foldl
    (fun (area : Area) attr =>
      if attr.1 = "id" then { area with id := attr.2 }
      else if attr.1 = "lang" then { area with lang := attr.2 }
      else if attr.1 = "title" then
        let area := match ParseBoundingBoxFromTitle attr.2 with
          | some bb => { area with bbox := bb }
          | none => area
        let props := ParseTitle attr.2
        { area with metadata := (metaInsert (fun k => k ≠ "bbox") props area.metadata) }
      else area)
    area
  let collected := collectAreaL n.childList
  { area with
    paragraphs := collected.1.map processParagraph
    lines := collected.2.1.map processLine
    words := collected.2.2.map processWord }

mutual

/-- The `collectNodes` closure of `processPage`: classify descendants as
area, paragraph or line nodes, stopping the descent at a classified node.
Word elements directly under the page match none of the three classes and
are therefore dropped, exactly as in the source. -/
def collectPageN (n : HNode) : List HNode × List HNode × List HNode :=
  match n with
  | .elem _ _ children =>
    let cls := getAttrVal n "class"
    if gostr.containsSub cls "ocr_carea" then ([n], [], [])
    else if gostr.containsSub cls "ocr_par" then ([], [n], [])
    else if gostr.containsSub cls "ocr_line" then ([], [], [n])
    else collectPageL children
  | .text _ => ([], [], [])

/-- Page-level `collectNodes` over a child list. -/
def collectPageL : List HNode → List HNode × List HNode × List HNode
  | [] => ([], [], [])
  | c :: cs =>
    let a := collectPageN c
    let b := collectPageL cs
    (a.1 ++ b.1, a.2.1 ++ b.2.1, a.2.2 ++ b.2.2)

end

/-- `processPage` from the hOCR parsing file. -/
def processPage (n : HNode) : Page :=
  let page : Page := {}
  let page := n.attrList.foldl
    (fun (page : Page) attr =>
      if attr.1 = "id" then { page with id := attr.2 }
      else if attr.1 = "lang" then { page with lang := attr.2 }
      else if attr.1 = "title" then
        let page := { page with title := attr.2 }
        let page := match ParseBoundingBoxFromTitle attr.2 with
          | some bb => { page with bbox := bb }
          | none => page
        let props := ParseTitle attr.2
        let page := match titleLookup props "image" with
          | some (img :: _) => { page with imageName := img }
          | _ => page
        match titleLookup props "ppageno" with
        | some (pp :: _) => { page with pageNumber := gostr.atoiOrZero pp }
        | _ => page
      else page)
    page
  let collected := collectPageL n.childList
  { page with
    areas := collected.1.map processArea
    paragraphs := collected.2.1.map processParagraph
    lines := collected.2.2.map processLine }

mutual

/-- The `findPages` closure of `ParseHOCR`: collect every `div` element whose
`class` attribute contains `"ocr_page"`, without descending into a found
page. -/
def findPagesN (n : HNode) : List Page :=
  match n with
  | .elem tag attrs children =>
    if tag = "div" ∧ attrs.any (fun a => a.1 = "class" ∧ gostr.containsSub a.2 "ocr_page") then
      [processPage n]
    else findPagesL children
  | .text _ => []

/-- `findPages` over a child list. -/
def findPagesL : List HNode → List Page
  | [] => []
  | c :: cs => findPagesN c ++ findPagesL cs

end

end hocr

namespace hocr

namespace docmeta

mutual

/-- The `findHead` closure of `extractDocumentMeta`: first `head` element in
preorder. -/
def findHeadN (n : HNode) : Option HNode :=
  match n with
  | .elem tag _ children =>
    if tag = "head" then some n else findHeadL children
  | .text _ => none

/-- `findHead` over a child list. -/
def findHeadL : List HNode → Option HNode
  | [] => none
  | c :: cs =>
    match findHeadN c with
    | some h => some h
    | none => findHeadL cs

end

end docmeta

/-- The `findHTMLLang` closure of `extractDocumentMeta`: only the direct
children of the document node are inspected, and an `html` element
contributes the value of its first `lang` or `xml:lang` attribute. -/
def findHTMLLang (result : HOCR) (root : HNode) : HOCR :=
  root.childList.foldl
    (fun (result : HOCR) c =>
      match c with
      | .elem "html" attrs _ =>
        match attrs.find? (fun a => a.1 = "lang" ∨ a.1 = "xml:lang") with
        | some a => { result with language := a.2 }
        | none => result
      | _ => result)
    result

/-- The per-`meta`-element step of `extractDocumentMeta`: the last `name`
and `content` attributes are read, and recognized names update the document
metadata, description or language. -/
def processMetaElem (result : HOCR) (attrs : List (String × String)) : HOCR :=
  let nc := attrs.foldl
    (fun (nc : String × String) attr =>
      if attr.1 = "name" then (attr.2, nc.2)
      else if attr.1 = "content" then (nc.1, attr.2)
      else nc)
    ("", "")
  if nc.1 ≠ "" ∧ nc.2 ≠ "" then
    if nc.1 = "ocr-system" ∨ nc.1 = "ocr-capabilities" ∨
        nc.1 = "ocr-number-of-pages" ∨ nc.1 = "ocr-langs" then
      { result with metadata := upsert result.metadata nc.1 nc.2 }
    else if nc.1 = "description" then { result with description := nc.2 }
    else if nc.1 = "dc.language" then { result with language := nc.2 }
    else result
  else result

/-- `extractDocumentMeta` from the hOCR parsing file. -/
def extractDocumentMeta (result : HOCR) (root : HNode) : HOCR :=
  let result := findHTMLLang result root
  match docmeta.findHeadN root with
  | none => result
  | some head =>
    head.childList.foldl
      (fun (result : HOCR) c =>
        match c with
        | .elem "title" _ (first :: _) => { result with title := first.dataOf }
        | .elem "meta" attrs _ => processMetaElem result attrs
        | _ => result)
      result

/-- The page-finding and error phase of `ParseHOCR`, operating on the markup
tree: document metadata is extracted, all `ocr_page` divisions are processed,
and an error is reported exactly when no page element was found. -/
def parseHOCRTree (root : HNode) : HOCR × Option String :=
  let result : HOCR := { metadata := [] }
  let result := extractDocumentMeta result root
  let pages := findPagesN root
  let result := { result with pages := pages }
  if pages.isEmpty then
    (result, some "no ocr_page elements found in HOCR data")
  else (result, none)

end hocr

namespace hocr

open gostr

/-- Byte-lexicographic order on ASCII keys, the order in which Go's template
engine ranges over a map. -/
def keyLeList : List Char → List Char → Bool
  | [], _ => true
  | _ :: _, [] => false
  | a :: as, b :: bs =>
    if a.toNat < b.toNat then true
    else if b.toNat < a.toNat then false
    else keyLeList as bs

/-- Insertion into a key-sorted association list. -/
def insertSorted (p : String × String) :
    List (String × String) → List (String × String)
  | [] => [p]
  | q :: qs =>
    if keyLeList p.1.toList q.1.toList then p :: q :: qs
    else q :: insertSorted p qs

/-- Sort an association list by key, modelling `text/template`'s sorted map
iteration in `range $key, $value := .Metadata`. -/
def sortByKey (m : List (String × String)) : List (String × String) :=
  m.foldr insertSorted []

/-- Rounding half-to-even of Go's `fmt` verb `%.0f`, used by the template
for the word confidence.  Computed on the numerator and denominator so the
whole generator evaluates by plain integer arithmetic. -/
def printConfGo (q : ℚ) : String :=
  let n := q.num
  let d : Int := (q.den : Int)
  let f := Int.fdiv n d
  let r := n - d * f
  let v : Int :=
    if d < 2 * r then f + 1
    else if 2 * r < d then f
    else if f % 2 = 0 then f else f + 1
  printInt v

/-- The word span of `templates/hocr.tmpl` (identical at all four attachment
points): class, id, optional lang, a title with the bounding box and the
confidence when it is nonzero, and the word text emitted with no escaping,
exactly as `text/template` renders `{{ $word.Text }}`. -/
def genWordSpan (w : Word) : String :=
  "<span class='ocrx_word' id='" ++ w.id ++ "'" ++
  (if w.lang ≠ "" then " lang='" ++ w.lang ++ "'" else "") ++
  " title='bbox " ++ printFloatGo w.bbox.x1 ++ " " ++ printFloatGo w.bbox.y1 ++
  " " ++ printFloatGo w.bbox.x2 ++ " " ++ printFloatGo w.bbox.y2 ++
  (if w.confidence ≠ 0 then "; x_wconf " ++ printConfGo w.confidence else "") ++
  "'>" ++ w.text ++ "</span>"

/-- The line span of `templates/hocr.tmpl`, with its words inline. -/
def genLineSpan (l : Line) : String :=
  "<span class='ocr_line' id='" ++ l.id ++ "'" ++
  (if l.lang ≠ "" then " lang='" ++ l.lang ++ "'" else "") ++
  " title='bbox " ++ printFloatGo l.bbox.x1 ++ " " ++ printFloatGo l.bbox.y1 ++
  " " ++ printFloatGo l.bbox.x2 ++ " " ++ printFloatGo l.bbox.y2 ++
  (if l.baseline ≠ "" then "; baseline " ++ l.baseline else "") ++
  "'>" ++ String.join (l.words.map genWordSpan) ++ "</span>"

/-- The paragraph block of `templates/hocr.tmpl`; `indent` is the literal
indentation of the `<p>` line, 12 spaces under an area and 8 spaces directly
under the page. -/
def genParagraph (indent : String) (p : Paragraph) : String :=
  "\n" ++ indent ++ "<p class='ocr_par' id='" ++ p.id ++ "'" ++
  (if p.lang ≠ "" then " lang='" ++ p.lang ++ "'" else "") ++
  " title='bbox " ++ printFloatGo p.bbox.x1 ++ " " ++ printFloatGo p.bbox.y1 ++
  " " ++ printFloatGo p.bbox.x2 ++ " " ++ printFloatGo p.bbox.y2 ++ "'>" ++
  String.join (p.lines.map (fun l => "\n" ++ indent ++ "    " ++ genLineSpan l)) ++
  (if ¬ p.words.isEmpty then
    "\n" ++ indent ++ "    " ++ "<!-- Direct words in paragraph (if no lines) -->" ++
    String.join (p.words.map (fun w => "\n" ++ indent ++ "    " ++ genWordSpan w))
  else "") ++
  "\n" ++ indent ++ "</p>"

/-- The area block of `templates/hocr.tmpl`. -/
def genArea (a : Area) : String :=
  "\n        <div class='ocr_carea' id='" ++ a.id ++ "'" ++
  (if a.lang ≠ "" then " lang='" ++ a.lang ++ "'" else "") ++
  " title='bbox " ++ printFloatGo a.bbox.x1 ++ " " ++ printFloatGo a.bbox.y1 ++
  " " ++ printFloatGo a.bbox.x2 ++ " " ++ printFloatGo a.bbox.y2 ++ "'>" ++
  String.join (a.paragraphs.map (genParagraph "            ")) ++
  String.join (a.lines.map (fun l => "\n            " ++ genLineSpan l)) ++
  (if ¬ a.words.isEmpty then
    "\n            <!-- Direct words in area (if no lines) -->" ++
    String.join (a.words.map (fun w => "\n            " ++ genWordSpan w))
  else "") ++
  "\n        </div>"

/-- The page block of `templates/hocr.tmpl`. -/
def genPage (p : Page) : String :=
  "\n    <div class='ocr_page' id='" ++ p.id ++ "'" ++
  (if p.lang ≠ "" then " lang='" ++ p.lang ++ "'" else "") ++
  " title='bbox " ++ printFloatGo p.bbox.x1 ++ " " ++ printFloatGo p.bbox.y1 ++
  " " ++ printFloatGo p.bbox.x2 ++ " " ++ printFloatGo p.bbox.y2 ++
  (if p.imageName ≠ "" then "; image " ++ p.imageName else "") ++
  (if p.pageNumber > 0 then "; ppageno " ++ printInt p.pageNumber else "") ++
  "'>" ++
  String.join (p.areas.map genArea) ++
  String.join (p.paragraphs.map (genParagraph "        ")) ++
  (if ¬ p.lines.isEmpty then
    "\n        <!-- Direct lines in page (if no areas, blocks, or paragraphs) -->" ++
    String.join (p.lines.map (fun l => "\n        " ++ genLineSpan l))
  else "") ++
  "\n    </div>"

/-- `GenerateHOCRDocument` from `pkg/hocr/helpers.go`: execution of the
embedded `templates/hocr.tmpl` on the document, unfolded into string
concatenation.  Metadata is ranged in sorted key order; the three default
`meta` elements are emitted only when their key is absent (or empty) in the
metadata map; no escaping of any kind is applied to text or attribute
content, exactly as `text/template` renders them. -/
def GenerateHOCRDocument (doc : HOCR) : String :=
  let langOr := if doc.language ≠ "" then doc.language else "unknown"
  let titleOr := if doc.title ≠ "" then doc.title else "Document OCR"
  let metaLookup := fun k => (lookup doc.metadata k).getD ""
  "<?xml version=\"1.0\" encoding=\"UTF-8\"?>\n" ++
  "<!DOCTYPE html PUBLIC \"-//W3C//DTD XHTML 1.0 Transitional//EN\" \"http://www.w3.org/TR/xhtml1/DTD/xhtml1-transitional.dtd\">\n" ++
  "<html xmlns=\"http://www.w3.org/1999/xhtml\" xml:lang=\"" ++ langOr ++
  "\" lang=\"" ++ langOr ++ "\">\n" ++
  "<head>\n" ++
  "    <title>" ++ titleOr ++ "</title>\n" ++
  "    <meta http-equiv=\"Content-Type\" content=\"text/html;charset=utf-8\" />" ++
  String.join ((sortByKey doc.metadata).map
    (fun p => "\n    <meta name=\"" ++ p.1 ++ "\" content=\"" ++ p.2 ++ "\" />")) ++
  (if metaLookup "ocr-system" = "" then
    "\n    <meta name=\"ocr-system\" content=\"hOCR\" />"
  else "") ++
  (if metaLookup "ocr-number-of-pages" = "" then
    "\n    <meta name=\"ocr-number-of-pages\" content=\"" ++
      printInt (doc.pages.length : Int) ++ "\" />"
  else "") ++
  (if metaLookup "ocr-langs" = "" then
    "\n    <meta name=\"ocr-langs\" content=\"" ++ langOr ++ "\" />"
  else "") ++
  (if doc.description ≠ "" then
    "\n    <meta name=\"description\" content=\"" ++ doc.description ++ "\" />"
  else "") ++
  "\n</head>\n<body>" ++
  String.join (doc.pages.map genPage) ++
  "\n</body>\n</html>\n"

end hocr

namespace hocr

open gostr

/-- Character-entity decoding performed by the external HTML parsing library
in text and attribute values, covering the named and numeric entities that
occur in hOCR documents. -/
def decodeEntities : List Char → List Char
  | '&' :: 'l' :: 't' :: ';' :: rest => '<' :: decodeEntities rest
  | '&' :: 'g' :: 't' :: ';' :: rest => '>' :: decodeEntities rest
  | '&' :: 'a' :: 'm' :: 'p' :: ';' :: rest => '&' :: decodeEntities rest
  | '&' :: 'q' :: 'u' :: 'o' :: 't' :: ';' :: rest => '"' :: decodeEntities rest
  | '&' :: 'a' :: 'p' :: 'o' :: 's' :: ';' :: rest => '\'' :: decodeEntities rest
  | '&' :: '#' :: '3' :: '9' :: ';' :: rest => '\'' :: decodeEntities rest
  | c :: rest => c :: decodeEntities rest
  | [] => []

/-- Characters legal in a tag name for the reader. -/
def isTagNameChar (c : Char) : Bool :=
  c.isAlpha ∨ c.isDigit

/-- Characters legal in an attribute name for the reader. -/
def isAttrNameChar (c : Char) : Bool :=
  c.isAlpha ∨ c.isDigit ∨ c = '-' ∨ c = ':' ∨ c = '_'

/-- Elements without content in the emitted sublanguage. -/
def isVoidTag (t : String) : Bool :=
  t = "meta" ∨ t = "link" ∨ t = "br" ∨ t = "img" ∨ t = "hr" ∨ t = "input"

/-- Attribute scanning of the reader: space-separated attributes with
single- or double-quoted, entity-decoded values, stopping before '>' or
'/>'. -/
def scanAttrs : Nat → List Char → List (String × String) × List Char
  | 0, cs => ([], cs)
  | fuel + 1, cs =>
    let cs := cs.dropWhile isSpaceGo
    match cs with
    | [] => ([], [])
    | '>' :: _ => ([], cs)
    | '/' :: _ => ([], cs)
    | _ =>
      let name := cs.takeWhile isAttrNameChar
      let rest := cs.dropWhile isAttrNameChar
      if name.isEmpty then ([], cs)
      else
        let rest := rest.dropWhile isSpaceGo
        match rest with
        | '=' :: rest' =>
          let rest' := rest'.dropWhile isSpaceGo
          match rest' with
          | '"' :: v =>
            let value := v.takeWhile (fun c => c ≠ '"')
            let after := (v.dropWhile (fun c => c ≠ '"')).drop 1
            let (attrs, rem) := scanAttrs fuel after
            ((String.mk name, String.mk (decodeEntities value)) :: attrs, rem)
          | '\'' :: v =>
            let value := v.takeWhile (fun c => c ≠ '\'')
            let after := (v.dropWhile (fun c => c ≠ '\'')).drop 1
            let (attrs, rem) := scanAttrs fuel after
            ((String.mk name, String.mk (decodeEntities value)) :: attrs, rem)
          | _ =>
            let value := rest'.takeWhile (fun c => ¬ isSpaceGo c ∧ c ≠ '>')
            let after := rest'.dropWhile (fun c => ¬ isSpaceGo c ∧ c ≠ '>')
            let (attrs, rem) := scanAttrs fuel after
            ((String.mk name, String.mk (decodeEntities value)) :: attrs, rem)
        | _ =>
          let (attrs, rem) := scanAttrs fuel rest
          ((String.mk name, "") :: attrs, rem)

/-- Drop everything up to and including the first occurrence of `pat`. -/
def dropPast (pat : List Char) : List Char → List Char
  | [] => []
  | c :: cs =>
    match dropLiteral (c :: cs) pat with
    | some rest => rest
    | none => dropPast pat cs

/-- The node reader modelling the external HTML parsing library on the
markup sublanguage emitted by the repository's template: elements with
quoted attributes and matching end tags, void and self-closing elements,
doctype and processing instructions (skipped), comments (skipped, as the
repository's walk never inspects comment nodes) and entity-decoded text.
Reads a sibling list, stopping at an end tag or the end of input. -/
def readNodes : Nat → List Char → List HNode × List Char
  | 0, cs => ([], cs)
  | fuel + 1, cs =>
    match cs with
    | [] => ([], [])
    | '<' :: '/' :: rest => ([], '<' :: '/' :: rest)
    | '<' :: '!' :: rest =>
      if listStartsWith rest "--".toList then
        readNodes fuel (dropPast "-->".toList rest)
      else
        readNodes fuel (dropPast ['>'] rest)
    | '<' :: '?' :: rest =>
      readNodes fuel (dropPast ['>'] rest)
    | '<' :: c :: rest =>
      if c.isAlpha then
        let name := String.mk ((c :: rest).takeWhile isTagNameChar)
        let afterName := (c :: rest).dropWhile isTagNameChar
        let (attrs, afterAttrs) := scanAttrs (fuel + 1) afterName
        match afterAttrs with
        | '/' :: '>' :: rem =>
          let (siblings, rest') := readNodes fuel rem
          (HNode.elem name attrs [] :: siblings, rest')
        | '>' :: rem =>
          if isVoidTag name then
            let (siblings, rest') := readNodes fuel rem
            (HNode.elem name attrs [] :: siblings, rest')
          else
            let (children, afterChildren) := readNodes fuel rem
            let afterClose :=
              match dropLiteral afterChildren ('<' :: '/' :: name.toList ++ ['>']) with
              | some r => r
              | none => dropPast ['>'] afterChildren
            let (siblings, rest') := readNodes fuel afterClose
            (HNode.elem name attrs children :: siblings, rest')
        | _ => ([], afterAttrs)
      else
        let (siblings, rest') := readNodes fuel rest
        (HNode.text "<" :: siblings, rest')
    | c :: rest =>
      let run := c :: rest.takeWhile (fun d => d ≠ '<')
      let after := rest.dropWhile (fun d => d ≠ '<')
      let (siblings, rest') := readNodes fuel after
      (HNode.text (String.mk (decodeEntities run)) :: siblings, rest')

/-- The document node produced by the reader for an input string. -/
def htmlParse (s : String) : HNode :=
  HNode.elem "" [] (readNodes (s.length + 1) s.toList).1

/-- The charset sniffing prologue of `ParseHOCR`: take the 20 characters
after the first `charset=`, split them on quote, semicolon and greater-than
characters, and lowercase the first field.  The slice is clipped at the end
of input (Go would panic there; the repository's own output always has at
least 20 characters after the declaration). -/
def sniffCharset (content : String) : String :=
  if containsSub content "charset=" then
    match listIndexOf content.toList "charset=".toList with
    | some idx =>
      let metaStart := idx + 8
      if content.length > metaStart + 10 then
        let snippet := (content.toList.drop metaStart).take 20
        match fieldsFuncList
            (fun r => r = '"' ∨ r = ';' ∨ r = '\'' ∨ r = '>') snippet with
        | [] => "utf-8"
        | f :: _ =>
          let enc := toLowerGo (String.mk f)
          if enc ≠ "" then enc else "utf-8"
      else "utf-8"
    | none => "utf-8"
  else "utf-8"

/-- `ParseHOCR` from the hOCR parsing file, at the level of input strings:
charset sniffing (the ISO-8859-1 transcoding branch is the identity on the
ASCII documents this development evaluates), the external library's markup
tree construction, document metadata extraction, the `ocr_page` walk, and
the zero-page error.  Both components of the Go return value are kept. -/
def ParseHOCR (data : String) : HOCR × Option String :=
  let _ := sniffCharset data
  let root := htmlParse data
  parseHOCRTree root

end hocr

namespace gostr

/-- Go `strings.ToUpper` (ASCII behaviour, as for `toLowerGo`). -/
def toUpperGo (s : String) : String :=
  String.mk (s.toList.map Char.toUpper)

end gostr

namespace pdfocr

open gostr hocr

/-- `FontConfig` of package pdfocr.  Modelled from the spec and from every
use site (`SetFont(fontConfig.Name, fontConfig.Style, fontConfig.Size)`,
`fontSize * fontConfig.AscentRatio`): the struct declaration itself is in a
configuration file not present under src/. -/
structure FontConfig where
  name : String := "Helvetica"
  style : String := ""
  size : ℚ := 10
  ascentRatio : ℚ := 718/1000

/-- `OCRConfig` of package pdfocr.  Modelled from the spec (§6) and from
every use site in `pdfocr.go`, `detect.go` and the command-line tool; the
struct declaration itself is in a configuration file not present under
src/.  The `Logger` writer is not modelled: warnings are returned in the
results instead of being written. -/
structure OCRConfig where
  debug : Bool := false
  force : Bool := false
  strict : Bool := false
  startPage : Int := 1
  dumpPDF : Bool := false
  font : FontConfig := {}
  logWarnings : Bool := true
  layerName : String := "OCR Text"

/-- `normalizeCoords` from the pdfocr helper file. -/
def normalizeCoords (x y hocrW hocrH pdfW pdfH : ℚ) : ℚ × ℚ :=
  ((x / hocrW) * pdfW, (y / hocrH) * pdfH)

/-- Success of the ISO-8859-1 encoding used by `drawWord`: the
`charmap.ISO8859_1` encoder succeeds exactly when every rune is below
U+0100. -/
def encodeLatin1Ok (s : String) : Bool :=
  s.toList.all (fun c => c.toNat < 256)

/-- One text placement produced by `drawWord`. -/
structure DrawnWord where
  x : ℚ
  y : ℚ
  fontSize : ℚ
  text : String
deriving DecidableEq, Repr

/-- `drawWord` from the pdfocr drawing file.  `unit` is the abstract font
metric of the external fpdf library: `GetStringWidth s` at font size `k`
is `k * unit s`; `SetFontSize`/`GetFontSize` are threaded explicitly, the
current size on entry being `fc.size` because the layer loop sets it before
the first word and `drawWord` restores it after each word.  The source's
`debug` flag only switches text color, alpha and an outline rectangle —
presentation effects of the external library with no bearing on placement —
and is not carried in the model.  The second
component reports whether the encoding fallback was taken. -/
def drawWord (unit : String → ℚ) (fc : FontConfig)
    (transform : ℚ → ℚ → ℚ × ℚ) (w : hocr.Word) : DrawnWord × Bool :=
  let xy := transform w.bbox.x1 w.bbox.y1
  let x := xy.1
  let y0 := xy.2
  let x2 := (transform w.bbox.x2 w.bbox.y1).1
  let wordWidth := x2 - x
  let encOk := encodeLatin1Ok w.text
  let latin1 := w.text
  let strWidth := fc.size * unit latin1
  let fontSize := if 0 < strWidth then fc.size * (wordWidth / strWidth) else fc.size
  let y := y0 + fontSize * fc.ascentRatio
  (⟨x, y, fontSize, latin1⟩, ! encOk)

/-- The word traversal of `drawOCRLayer`, in the order of its loops: words
directly under each area, then words of lines under the area, then words of
paragraphs under the area (direct words, then line words), then the same for
paragraphs directly under the page, then words of lines directly under the
page. -/
def pageLayerWords (page : hocr.Page) : List hocr.Word :=
  (page.areas.map (fun area =>
    area.words ++
    (area.lines.map (·.words)).flatten ++
    (area.paragraphs.map (fun par =>
      par.words ++ (par.lines.map (·.words)).flatten)).flatten)).flatten ++
  (page.paragraphs.map (fun par =>
    par.words ++ (par.lines.map (·.words)).flatten)).flatten ++
  (page.lines.map (·.words)).flatten

/-- The layer produced by one `drawOCRLayer` call. -/
structure LayerOut where
  layerName : String
  drawn : List DrawnWord
  wordCount : Nat
  encodingErrors : Nat
deriving Repr

/-- `drawOCRLayer` from the pdfocr drawing file, split so that the drawing
effect and the returned error are both visible: the layer name is formatted
with the page number when it is positive, every word of the page is drawn
through `drawWord` while counting words and encoding fallbacks, and the
error value is non-nil exactly under the source's final condition
`wordCount > 0 && encodingErrors > 0 && encodingErrors > wordCount/10`. -/
def drawOCRLayerRaw (unit : String → ℚ) (fc : FontConfig) (page : hocr.Page)
    (layerName : String) (pageNum : Int)
    (transform : ℚ → ℚ → ℚ × ℚ) : LayerOut × Option String :=
  let formatted :=
    if pageNum > 0 then layerName ++ " (Page " ++ printInt pageNum ++ ")"
    else layerName
  let words := pageLayerWords page
  let results := words.map (drawWord unit fc transform)
  let wordCount := words.length
  let encodingErrors := (results.filter (·.2)).length
  let out : LayerOut :=
    ⟨formatted, results.map (·.1), wordCount, encodingErrors⟩
  let err :=
    if wordCount > 0 ∧ encodingErrors > 0 ∧ encodingErrors > wordCount / 10 then
      some ("character encoding issues in " ++ printInt encodingErrors ++
        " of " ++ printInt wordCount ++ " words")
    else none
  (out, err)

/-- `drawOCRLayer` as its callers with error propagation see it. -/
def drawOCRLayer (unit : String → ℚ) (fc : FontConfig) (page : hocr.Page)
    (layerName : String) (pageNum : Int)
    (transform : ℚ → ℚ → ℚ × ℚ) : Except String LayerOut :=
  match drawOCRLayerRaw unit fc page layerName pageNum transform with
  | (out, none) => .ok out
  | (_, some e) => .error e

/-- An input image buffer for Operation B: its length, and the outcome of
the external `image.DecodeConfig` on it (the format name when it decodes). -/
structure Img where
  size : Nat := 1
  format : Option String := some "png"

/-- `detectImageType` from `pkg/pdfocr/create.go`, with `image.DecodeConfig`
supplied by the image's oracle field. -/
def detectImageType (img : Img) : Except String String :=
  match img.format with
  | some f => .ok (toUpperGo f)
  | none => .error "failed to decode image config"

/-- One page built by `createPDFFromImage`. -/
structure BuiltPage where
  pageIndex : Nat
  page : hocr.Page
  width : ℚ
  height : ℚ
  imageIndex : Nat
  layer : LayerOut

/-- One iteration of the page loop of `createPDFFromImage`: size the page to
its bounding box, register its image (re-detecting the type, with the error
wrapped), and draw the OCR layer with `drawOCRLayer`'s error wrapped. -/
def createStep (unit : String → ℚ) (hOCRData : hocr.HOCR)
    (imagesData : List Img) (layerName : String) (fc : FontConfig)
    (i : Nat) : Except String BuiltPage :=
  let page := hOCRData.pages.getD i {}
  let w := page.bbox.x2
  let h := page.bbox.y2
  let actualPageNum : Int := (i : Int) + 1
  match detectImageType (imagesData.getD i {}) with
  | .error e =>
    .error ("failed to detect image type for image " ++ printInt i ++ ": " ++ e)
  | .ok _ =>
    match drawOCRLayer unit fc page layerName actualPageNum
        (fun x y => normalizeCoords x y w h w h) with
    | .error e =>
      .error ("failed to draw OCR layer for page " ++ printInt ((i : Int) + 1) ++
        ": " ++ e)
    | .ok layerOut => .ok ⟨i, page, w, h, i, layerOut⟩

/-- The page loop of `createPDFFromImage` over the remaining indices; the
first failing step aborts the whole loop, as the source returns on the first
error. -/
def createLoop (unit : String → ℚ) (hOCRData : hocr.HOCR)
    (imagesData : List Img) (layerName : String) (fc : FontConfig) :
    List Nat → Except String (List BuiltPage)
  | [] => .ok []
  | i :: rest =>
    match createStep unit hOCRData imagesData layerName fc i with
    | .error e => .error e
    | .ok bp =>
      (createLoop unit hOCRData imagesData layerName fc rest).map
        (fun ps => bp :: ps)

/-- `createPDFFromImage` from `pkg/pdfocr/create.go`: pages are built for
`i` from `startFromPage - 1` while `i` is below both the page count and the
image count; each page is sized to its bounding box, carries its image, and
receives its OCR layer with `drawOCRLayer`'s error propagated.  The final
`pdf.Output` serialization of the external library is modelled as
successful. -/
def createPDFFromImage (unit : String → ℚ) (hOCRData : hocr.HOCR)
    (imagesData : List Img) (startFromPage : Int) (layerName : String)
    (fc : FontConfig) : Except String (List BuiltPage) :=
  let bound := min hOCRData.pages.length imagesData.length
  let startIdx := (startFromPage - 1).toNat
  createLoop unit hOCRData imagesData layerName fc
    ((List.range bound).drop startIdx)

/-- The image validation loop of `AssembleWithOCR`, reporting the first
empty or undecodable image with its 1-based index. -/
def validateImages : List Img → Nat → Option String
  | [], _ => none
  | img :: rest, i =>
    if img.size = 0 then some ("image " ++ printInt (i + 1) ++ " is empty")
    else
      match detectImageType img with
      | .error e =>
        some ("image " ++ printInt (i + 1) ++ " has invalid format: " ++ e)
      | .ok _ => validateImages rest (i + 1)

/-- `AssembleWithOCR` from `pkg/pdfocr/pdfocr.go`, on the parsed-struct
input path (the raw-bytes path is `ParseHOCR` composed in front): input
validation in source order, then `createPDFFromImage`. -/
def AssembleWithOCR (unit : String → ℚ) (doc : hocr.HOCR)
    (imagesData : List Img) (config : OCRConfig) :
    Except String (List BuiltPage) :=
  if doc.pages.length = 0 then .error "HOCR data contains no pages"
  else if imagesData.length = 0 then .error "no image data provided"
  else if config.startPage < 1 then
    .error ("start page must be at least 1, got " ++ printInt config.startPage)
  else if imagesData.length < doc.pages.length then
    .error ("not enough images (" ++ printInt imagesData.length ++
      ") for HOCR pages (" ++ printInt doc.pages.length ++ ")")
  else
    match validateImages imagesData 0 with
    | some e => .error e
    | none =>
      match createPDFFromImage unit doc imagesData config.startPage
          config.layerName config.font with
      | .error e => .error ("error creating PDF from images: " ++ e)
      | .ok pages => .ok pages

end pdfocr

namespace pdfocr

open gostr hocr

/-- Raw page-description input for Operation A: whether the byte buffer is
empty, and the sequence of optional-content-group names that the six fixed
regular expressions of `detectPDFLayers` extract from it (in pattern order,
duplicates included, PDF string escapes and UTF-16 byte-order marks already
resolved by `unescapePDFString` and `decodeUTF16BE`). -/
structure PDFData where
  isEmpty : Bool := false
  layers : List String := []

/-- The deduplication tail of `detectPDFLayers`, preserving first-seen
order via the `seen` set. -/
def dedupAux (seen : List String) : List String → List String
  | [] => []
  | l :: rest =>
    if seen.contains l then dedupAux seen rest
    else l :: dedupAux (l :: seen) rest

/-- First-seen-order deduplication, the final step of `detectPDFLayers`. -/
def dedupFirstSeen (ls : List String) : List String :=
  dedupAux [] ls

/-- `detectPDFLayers` from `pkg/pdfocr/detect.go`: error on empty input,
otherwise the extracted names (oracle field, see `PDFData`) deduplicated in
first-seen order. -/
def detectPDFLayers (pdfData : PDFData) : Except String (List String) :=
  if pdfData.isEmpty then .error "empty PDF data"
  else .ok (dedupFirstSeen pdfData.layers)

/-- `LayerCheckResult` from `pkg/pdfocr/detect.go`. -/
structure LayerCheckResult where
  layers : List String := []
  hasOCRLayer : Bool := false
  ocrLayerName : String := ""
  warnings : List String := []
deriving DecidableEq, Repr

/-- The compiled pattern `^<base>\s*\(Page\s*\d+.*` of
`CheckExistingOCRLayers` (with the base name quoted literally), as a
matching predicate: the name starts with the base, then optional regexp
whitespace, then the literal `(Page`, then optional regexp whitespace, then
at least one digit; anything may follow. -/
def pageLayerMatch (base layer : String) : Bool :=
  match dropLiteral layer.toList base.toList with
  | none => false
  | some r1 =>
    match dropLiteral (r1.dropWhile isRegexSpace) "(Page".toList with
    | none => false
    | some r2 =>
      match (r2.dropWhile isRegexSpace) with
      | [] => false
      | c :: _ => c.isDigit

/-- The warning text of the soft branch of `CheckExistingOCRLayers`. -/
def mightContainOCRWarning (layer : String) : String :=
  "Existing layer detected that might contain OCR: " ++ layer

/-- The layer loop of `CheckExistingOCRLayers`, with its `break`: the first
name equal to the base or matching the page pattern sets the hard flag and
stops the scan; any other name whose lowercasing contains `"ocr"` and that
does not have the base as a prefix contributes a warning. -/
def checkOCRLoop (ocrLayerName : String) : List String → LayerCheckResult
  | [] => {}
  | layer :: rest =>
    if layer = ocrLayerName then
      { hasOCRLayer := true, ocrLayerName := layer }
    else if pageLayerMatch ocrLayerName layer then
      { hasOCRLayer := true, ocrLayerName := layer }
    else
      let r := checkOCRLoop ocrLayerName rest
      if containsSub (toLowerGo layer) "ocr" ∧ ¬ hasPrefixGo layer ocrLayerName then
        { r with warnings := mightContainOCRWarning layer :: r.warnings }
      else r

/-- `CheckExistingOCRLayers` from `pkg/pdfocr/detect.go` (the exported
detector used by `DetectOCR`). -/
def CheckExistingOCRLayers (pdfData : PDFData) (ocrLayerName : String) :
    Except String LayerCheckResult :=
  match detectPDFLayers pdfData with
  | .error e => .error ("cannot analyze layers: " ++ e)
  | .ok layers => .ok { checkOCRLoop ocrLayerName layers with layers := layers }

/-- `OCRDetectionResult` from `pkg/pdfocr/detect.go`. -/
structure OCRDetectionResult where
  hasOCR : Bool := false
  hasLayerOCR : Bool := false
  layerInfo : LayerCheckResult := {}
  warnings : List String := []
deriving DecidableEq, Repr

/-- `DetectOCR` from `pkg/pdfocr/detect.go`: layer detection with its error
demoted to a warning, the one-shot "Potential OCR layers" note, and
`HasOCR` mirroring `HasLayerOCR`.  The Go error result is always nil. -/
def DetectOCR (pdfData : PDFData) (config : OCRConfig) : OCRDetectionResult :=
  match CheckExistingOCRLayers pdfData config.layerName with
  | .error e =>
    { warnings := ["Layer detection error: " ++ e] }
  | .ok layerResult =>
    let r : OCRDetectionResult :=
      { hasLayerOCR := layerResult.hasOCRLayer
        layerInfo := layerResult
        warnings := layerResult.warnings }
    let r :=
      if ¬ r.hasLayerOCR ∧
          layerResult.warnings.any (fun w => containsSub w "might contain OCR") then
        { r with warnings := r.warnings ++ ["Potential OCR layers were detected"] }
      else r
    { r with hasOCR := r.hasLayerOCR }

/-- One page produced by `modifyExistingPDF`: the imported source page and
the layer drawn on top of it. -/
structure ModPage where
  targetPage : Int
  page : hocr.Page
  width : ℚ
  height : ℚ
  layer : LayerOut

/-- The page loop of `modifyExistingPDF` over the model pages, carrying the
0-based index.  The result of `drawOCRLayer` is discarded (the source calls
it without assigning its return value), so the drawn layer is kept but no
error can escape. -/
def modifyLoop (unit : String → ℚ) (startFromPage : Int) (layerName : String)
    (fc : FontConfig) : Nat → List hocr.Page → List ModPage
  | _, [] => []
  | i, page :: rest =>
    let targetPage := (i : Int) + startFromPage
    let actualPageNum : Int := (i : Int) + 1
    let out := (drawOCRLayerRaw unit fc page layerName actualPageNum
      (fun x y => (x, y))).1
    ⟨targetPage, page, page.bbox.x2, page.bbox.y2, out⟩ ::
      modifyLoop unit startFromPage layerName fc (i + 1) rest

/-- `modifyExistingPDF` from the pdfocr modification file: each model page
is laid over the imported source page `i + startFromPage` with the identity
transform, and the error value of `drawOCRLayer` is discarded.  The final
`pdf.Output` of the external library is modelled as successful, so the
function never fails. -/
def modifyExistingPDF (unit : String → ℚ) (hOCRData : hocr.HOCR)
    (startFromPage : Int) (layerName : String) (fc : FontConfig) :
    Except String (List ModPage) :=
  .ok (modifyLoop unit startFromPage layerName fc 0 hOCRData.pages)

/-- Result of a successful `ApplyOCR`: the warnings that were collected and
the modified pages. -/
structure ApplyResult where
  warnings : List String
  pages : List ModPage

/-- The existing-OCR message of `ApplyOCR`, layer name included when
known. -/
def fileAlreadyHasOCRMsg (ocrLayerName : String) : String :=
  if ocrLayerName ≠ "" then
    "file already has OCR (layer '" ++ ocrLayerName ++ "')"
  else "file already has OCR"

/-- `ApplyOCR` from `pkg/pdfocr/pdfocr.go`, on the parsed-struct input path:
input validation in source order, OCR detection, accumulation of warnings
and blockers, the Strict/Force decision (abort before any page is drawn
exactly when a blocker exists with `Strict` set and `Force` unset), and
`modifyExistingPDF`.  Logging is not modelled; the collected warnings are
returned. -/
def ApplyOCR (unit : String → ℚ) (inputPDFData : PDFData) (doc : hocr.HOCR)
    (config : OCRConfig) : Except String ApplyResult :=
  if inputPDFData.isEmpty then .error "input PDF data is empty"
  else if doc.pages.length = 0 then .error "HOCR data contains no pages"
  else if config.startPage < 1 then
    .error ("start page must be at least 1, got " ++ printInt config.startPage)
  else
    let ocrResult := DetectOCR inputPDFData config
    let warnings := ocrResult.warnings
    let wb :=
      if ocrResult.hasOCR then
        let msg := fileAlreadyHasOCRMsg ocrResult.layerInfo.ocrLayerName
        (warnings ++ [msg], [msg])
      else (warnings, ([] : List String))
    let warnings := wb.1
    let blockers := wb.2
    if ¬ blockers.isEmpty ∧ config.strict ∧ ¬ config.force then
      .error ((blockers.headD "") ++ " - set Force option to override")
    else
      match modifyExistingPDF unit doc config.startPage config.layerName
          config.font with
      | .error e => .error ("error modifying existing PDF: " ++ e)
      | .ok pages => .ok ⟨warnings, pages⟩

end pdfocr

namespace hocr

/-- Number of words of a line. -/
def Line.wordCount (l : Line) : Nat :=
  l.words.length

/-- Number of words of a paragraph, across its two attachment points. -/
def Paragraph.wordCount (p : Paragraph) : Nat :=
  p.words.length + (p.lines.map Line.wordCount).sum

/-- Number of words of an area, across its three attachment points. -/
def Area.wordCount (a : Area) : Nat :=
  a.words.length + (a.lines.map Line.wordCount).sum +
    (a.paragraphs.map Paragraph.wordCount).sum

/-- Number of words of a page, across every legal attachment point of the
data model. -/
def Page.wordCount (p : Page) : Nat :=
  (p.areas.map Area.wordCount).sum + (p.paragraphs.map Paragraph.wordCount).sum +
    (p.lines.map Line.wordCount).sum

/-- All words of a paragraph in model order. -/
def Paragraph.allWords (p : Paragraph) : List Word :=
  p.words ++ (p.lines.map (·.words)).flatten

/-- All words of an area in model order. -/
def Area.allWords (a : Area) : List Word :=
  a.words ++ (a.lines.map (·.words)).flatten ++
    (a.paragraphs.map Paragraph.allWords).flatten

/-- All words of a page in model order, visiting every legal attachment
point. -/
def Page.allWords (p : Page) : List Word :=
  (p.areas.map Area.allWords).flatten ++
    (p.paragraphs.map Paragraph.allWords).flatten ++
    (p.lines.map (·.words)).flatten

end hocr

namespace pdfocr

open gostr hocr

/-- Number of words of a page whose text the ISO-8859-1 encoding of
`drawWord` cannot represent. -/
def encodingFailures (page : hocr.Page) : Nat :=
  ((pageLayerWords page).filter (fun w => ! encodeLatin1Ok w.text)).length

/-- The final error condition of `drawOCRLayer`, as a predicate of the page
alone. -/
def encodingThresholdExceeded (page : hocr.Page) : Bool :=
  0 < (pageLayerWords page).length ∧ 0 < encodingFailures page ∧
    (pageLayerWords page).length / 10 < encodingFailures page

theorem pageLayerWords_eq_allWords (page : hocr.Page) :
    pageLayerWords page = page.allWords := by
  have hp : ∀ ps : List hocr.Paragraph, ps.map hocr.Paragraph.allWords
      = ps.map (fun par => par.words ++ (par.lines.map (·.words)).flatten) := by
    intro ps
    apply List.map_congr_left
    intro p _
    rfl
  have ha : page.areas.map hocr.Area.allWords
      = page.areas.map (fun area => area.words ++
          (area.lines.map (·.words)).flatten ++
          (area.paragraphs.map (fun par =>
            par.words ++ (par.lines.map (·.words)).flatten)).flatten) := by
    apply List.map_congr_left
    intro a _
    unfold hocr.Area.allWords
    rw [hp]
  unfold pageLayerWords hocr.Page.allWords
  rw [hp, ha]

theorem drawWord_snd (unit : String → ℚ) (fc : FontConfig)
    (transform : ℚ → ℚ → ℚ × ℚ) (w : hocr.Word) :
    (drawWord unit fc transform w).2 = ! encodeLatin1Ok w.text := rfl

theorem drawOCRLayerRaw_encodingErrors (unit : String → ℚ) (fc : FontConfig)
    (page : hocr.Page) (layerName : String) (pageNum : Int)
    (transform : ℚ → ℚ → ℚ × ℚ) :
    (drawOCRLayerRaw unit fc page layerName pageNum transform).1.encodingErrors =
      encodingFailures page := by
  simp only [drawOCRLayerRaw, encodingFailures]
  rw [List.filter_map]
  simp only [List.length_map, Function.comp_def, drawWord_snd]

theorem drawOCRLayerRaw_err_iff (unit : String → ℚ) (fc : FontConfig)
    (page : hocr.Page) (layerName : String) (pageNum : Int)
    (transform : ℚ → ℚ → ℚ × ℚ) :
    (drawOCRLayerRaw unit fc page layerName pageNum transform).2.isSome =
      encodingThresholdExceeded page := by
  have he : ((pageLayerWords page).map (drawWord unit fc transform)
      |>.filter (·.2)).length = encodingFailures page := by
    simpa [drawOCRLayerRaw] using
      drawOCRLayerRaw_encodingErrors unit fc page layerName pageNum transform
  simp only [drawOCRLayerRaw, encodingThresholdExceeded]
  rw [he]
  by_cases h1 : (pageLayerWords page).length > 0 ∧ 0 < encodingFailures page ∧
      encodingFailures page > (pageLayerWords page).length / 10
  · simp only [if_pos h1]
    simp only [gt_iff_lt] at h1
    simp [h1.1, h1.2.1, h1.2.2]
  · simp only [if_neg h1]
    simp only [gt_iff_lt] at h1 ⊢
    simp only [Option.isSome_none, eq_comm (a := false), decide_eq_false_iff_not]
    exact fun hc => h1 ⟨hc.1, hc.2.1, hc.2.2⟩

end pdfocr

namespace pdfocr

theorem drawOCRLayer_isOk_eq (unit : String → ℚ) (fc : FontConfig)
    (page : hocr.Page) (layerName : String) (pageNum : Int)
    (transform : ℚ → ℚ → ℚ × ℚ) :
    (drawOCRLayer unit fc page layerName pageNum transform).isOk =
      ! encodingThresholdExceeded page := by
  have h := drawOCRLayerRaw_err_iff unit fc page layerName pageNum transform
  unfold drawOCRLayer
  rcases hre : drawOCRLayerRaw unit fc page layerName pageNum transform with ⟨out, err⟩
  rw [hre] at h
  cases err <;> simp_all [Except.isOk, Except.toBool]

theorem threshold_arith (wc ec : Nat) :
    (0 < wc ∧ 0 < ec ∧ wc / 10 < ec) ↔
      (0 < wc ∧ (1 : ℚ)/10 < (ec : ℚ)/(wc : ℚ)) := by
  constructor
  · rintro ⟨h1, _, h3⟩
    refine ⟨h1, ?_⟩
    have h4 : wc < ec * 10 := (Nat.div_lt_iff_lt_mul (by norm_num)).1 h3
    rw [div_lt_div_iff₀ (by norm_num) (by exact_mod_cast h1)]
    have h5 : (wc : ℚ) < (ec : ℚ) * 10 := by exact_mod_cast h4
    linarith
  · rintro ⟨h1, h2⟩
    rw [div_lt_div_iff₀ (by norm_num) (by exact_mod_cast h1)] at h2
    have h4 : wc < ec * 10 := by exact_mod_cast (by linarith : (wc : ℚ) < (ec : ℚ) * 10)
    refine ⟨h1, ?_, (Nat.div_lt_iff_lt_mul (by norm_num)).2 h4⟩
    omega

theorem sum_length_flatten_map {α β : Type} (f : α → List β) (g : α → Nat)
    (h : ∀ a, (f a).length = g a) (l : List α) :
    ((l.map f).flatten).length = (l.map g).sum := by
  induction l with
  | nil => simp
  | cons a t ih => simp [h a, ih]

theorem par_allWords_length (p : hocr.Paragraph) :
    p.allWords.length = p.wordCount := by
  delta hocr.Paragraph.allWords hocr.Paragraph.wordCount
  rw [List.length_append,
    sum_length_flatten_map (fun l : hocr.Line => l.words) hocr.Line.wordCount (fun _ => rfl)]

theorem area_allWords_length (a : hocr.Area) :
    a.allWords.length = a.wordCount := by
  delta hocr.Area.allWords hocr.Area.wordCount
  rw [List.length_append, List.length_append,
    sum_length_flatten_map (fun l : hocr.Line => l.words) hocr.Line.wordCount (fun _ => rfl),
    sum_length_flatten_map hocr.Paragraph.allWords hocr.Paragraph.wordCount
      par_allWords_length]

theorem allWords_length (p : hocr.Page) : p.allWords.length = p.wordCount := by
  delta hocr.Page.allWords hocr.Page.wordCount
  rw [List.length_append, List.length_append,
    sum_length_flatten_map hocr.Area.allWords hocr.Area.wordCount
      area_allWords_length,
    sum_length_flatten_map hocr.Paragraph.allWords hocr.Paragraph.wordCount
      par_allWords_length,
    sum_length_flatten_map (fun l : hocr.Line => l.words) hocr.Line.wordCount (fun _ => rfl)]

end pdfocr

/-- C6: for every page model with words at all legal attachment depths,
`drawOCRLayer` invokes `drawWord` exactly once per word of the page — the
drawn sequence is exactly the model's word enumeration over all attachment
points mapped through `drawWord`, and the rendered word count equals the
structural word count of the page. -/
theorem C6_each_word_rendered_exactly_once (unit : String → ℚ)
    (fc : pdfocr.FontConfig) (page : hocr.Page) (layerName : String)
    (pageNum : Int) (transform : ℚ → ℚ → ℚ × ℚ) :
    (pdfocr.drawOCRLayerRaw unit fc page layerName pageNum transform).1.drawn
        = page.allWords.map (fun w => (pdfocr.drawWord unit fc transform w).1)
    ∧ (pdfocr.drawOCRLayerRaw unit fc page layerName pageNum transform).1.drawn.length
        = page.wordCount := by
  have hd : (pdfocr.drawOCRLayerRaw unit fc page layerName pageNum transform).1.drawn
      = page.allWords.map (fun w => (pdfocr.drawWord unit fc transform w).1) := by
    simp [pdfocr.drawOCRLayerRaw, pdfocr.pageLayerWords_eq_allWords,
      List.map_map, Function.comp_def]
  refine ⟨hd, ?_⟩
  rw [hd, List.length_map, pdfocr.allWords_length]

/-- C7: `drawOCRLayer` returns a page-scoped error if and only if the page
has at least one word and the ratio of encoding-fallback words to total
words exceeds 1/10; an individual word's encoding failure is never fatal —
`drawWord` still places the raw text and only the fallback counter is
incremented. -/
theorem C7_encoding_fallback_threshold (unit : String → ℚ)
    (fc : pdfocr.FontConfig) (page : hocr.Page) (layerName : String)
    (pageNum : Int) (transform : ℚ → ℚ → ℚ × ℚ) :
    ((pdfocr.drawOCRLayer unit fc page layerName pageNum transform).isOk = false ↔
      0 < (pdfocr.pageLayerWords page).length ∧
        (1 : ℚ)/10 < (pdfocr.encodingFailures page : ℚ) /
          ((pdfocr.pageLayerWords page).length : ℚ))
    ∧ (∀ w : hocr.Word, pdfocr.encodeLatin1Ok w.text = false →
        (pdfocr.drawWord unit fc transform w).2 = true ∧
          (pdfocr.drawWord unit fc transform w).1.text = w.text) := by
  constructor
  · rw [pdfocr.drawOCRLayer_isOk_eq]
    have h1 : ((! pdfocr.encodingThresholdExceeded page) = false) ↔
        (pdfocr.encodingThresholdExceeded page = true) := by
      cases pdfocr.encodingThresholdExceeded page <;> simp
    rw [h1]
    have h2 : pdfocr.encodingThresholdExceeded page = true ↔
        (0 < (pdfocr.pageLayerWords page).length ∧
          0 < pdfocr.encodingFailures page ∧
          (pdfocr.pageLayerWords page).length / 10 < pdfocr.encodingFailures page) := by
      simp [pdfocr.encodingThresholdExceeded]
    rw [h2]
    exact pdfocr.threshold_arith _ _
  · intro w hw
    constructor
    · rw [pdfocr.drawWord_snd, hw]
      rfl
    · rfl

/-- A concrete word whose text the ISO-8859-1 encoder cannot represent. -/
def euroWord : hocr.Word :=
  { text := "€", bbox := ⟨10, 20, 110, 40⟩ }

/-- Witness for C7 at a concrete input: the euro sign fails the Latin-1
encoding, yet `drawWord` places the raw text and reports the fallback. -/
theorem C7_encoding_fallback_threshold_witness :
    (pdfocr.drawWord (fun _ => 1) {} (fun x y => (x, y)) euroWord).2 = true ∧
      (pdfocr.drawWord (fun _ => 1) {} (fun x y => (x, y)) euroWord).1.text =
        euroWord.text :=
  (C7_encoding_fallback_threshold (fun _ => 1) {} {} "OCR Text" 1
    (fun x y => (x, y))).2 euroWord (by decide)

/-- C8: for every rendered word whose glyph string has a positive measured
native width at the base font size (fpdf's `GetStringWidth` at size `k`
being `k * unit s`), `drawWord` sets the font size to
`baseFontSize * (boxWidth / nativeWidth)`, and the typeset string's measured
width at that size equals the word's transformed bounding-box width exactly
in rational arithmetic. -/
theorem C8_width_matching (unit : String → ℚ) (fc : pdfocr.FontConfig)
    (transform : ℚ → ℚ → ℚ × ℚ) (w : hocr.Word)
    (hpos : 0 < fc.size * unit w.text) :
    (pdfocr.drawWord unit fc transform w).1.fontSize =
        fc.size * (((transform w.bbox.x2 w.bbox.y1).1 -
          (transform w.bbox.x1 w.bbox.y1).1) / (fc.size * unit w.text))
    ∧ (pdfocr.drawWord unit fc transform w).1.fontSize *
          unit (pdfocr.drawWord unit fc transform w).1.text =
        (transform w.bbox.x2 w.bbox.y1).1 - (transform w.bbox.x1 w.bbox.y1).1 := by
  have hne : fc.size * unit w.text ≠ 0 := ne_of_gt hpos
  constructor
  · simp only [pdfocr.drawWord, if_pos hpos]
  · simp only [pdfocr.drawWord, if_pos hpos]
    field_simp
    ring

/-- Witness for C8 at a concrete input: base size 10, every glyph of width
1/10 unit, box width 100, so the chosen font size is 100 and the measured
width is exactly the box width. -/
theorem C8_width_matching_witness :
    (pdfocr.drawWord (fun s => (s.length : ℚ) / 10) { size := 10 }
        (fun x y => (x, y)) { text := "Hi", bbox := ⟨10, 20, 110, 40⟩ }).1.fontSize * 
        ((fun s : String => (s.length : ℚ) / 10)
          (pdfocr.drawWord (fun s => (s.length : ℚ) / 10) { size := 10 }
            (fun x y => (x, y)) { text := "Hi", bbox := ⟨10, 20, 110, 40⟩ }).1.text) =
      (110 : ℚ) - 10 :=
  (C8_width_matching (fun s => (s.length : ℚ) / 10) { size := 10 }
    (fun x y => (x, y)) { text := "Hi", bbox := ⟨10, 20, 110, 40⟩ }
    (by norm_num
        decide)).2

namespace pdfocr

theorem drawOCRLayer_eq_ok_of_not_threshold (unit : String → ℚ)
    (fc : FontConfig) (page : hocr.Page) (layerName : String) (pageNum : Int)
    (transform : ℚ → ℚ → ℚ × ℚ)
    (h : encodingThresholdExceeded page = false) :
    drawOCRLayer unit fc page layerName pageNum transform =
      .ok (drawOCRLayerRaw unit fc page layerName pageNum transform).1 := by
  have he := drawOCRLayerRaw_err_iff unit fc page layerName pageNum transform
  rw [h] at he
  unfold drawOCRLayer
  rcases hre : drawOCRLayerRaw unit fc page layerName pageNum transform with ⟨out, err⟩
  rw [hre] at he
  cases err with
  | none => rfl
  | some e => simp at he

theorem createStep_error_of_threshold (unit : String → ℚ) (doc : hocr.HOCR)
    (imgs : List Img) (layerName : String) (fc : FontConfig) (i : Nat)
    (hth : encodingThresholdExceeded (doc.pages.getD i {}) = true) :
    (createStep unit doc imgs layerName fc i).isOk = false := by
  unfold createStep
  cases hdet : detectImageType (imgs.getD i {}) with
  | error e => rfl
  | ok t =>
    have hdraw := drawOCRLayer_isOk_eq unit fc (doc.pages.getD i {}) layerName
      ((i : Int) + 1)
      (fun x y => normalizeCoords x y (doc.pages.getD i {}).bbox.x2
        (doc.pages.getD i {}).bbox.y2 (doc.pages.getD i {}).bbox.x2
        (doc.pages.getD i {}).bbox.y2)
    rw [hth] at hdraw
    simp only []
    cases hcall : drawOCRLayer unit fc (doc.pages.getD i {}) layerName
        ((i : Int) + 1)
        (fun x y => normalizeCoords x y (doc.pages.getD i {}).bbox.x2
          (doc.pages.getD i {}).bbox.y2 (doc.pages.getD i {}).bbox.x2
          (doc.pages.getD i {}).bbox.y2) with
    | error e => rfl
    | ok o =>
      rw [hcall] at hdraw
      simp [Except.isOk, Except.toBool] at hdraw

theorem createLoop_error_of_mem (unit : String → ℚ) (doc : hocr.HOCR)
    (imgs : List Img) (layerName : String) (fc : FontConfig)
    (idxs : List Nat) (i : Nat) (hmem : i ∈ idxs)
    (hth : encodingThresholdExceeded (doc.pages.getD i {}) = true) :
    (createLoop unit doc imgs layerName fc idxs).isOk = false := by
  induction idxs with
  | nil => cases hmem
  | cons j rest ih =>
    unfold createLoop
    rcases List.mem_cons.1 hmem with h | h
    · subst h
      have hstep := createStep_error_of_threshold unit doc imgs layerName fc i hth
      cases hc : createStep unit doc imgs layerName fc i with
      | error e => rfl
      | ok bp =>
        rw [hc] at hstep
        simp [Except.isOk, Except.toBool] at hstep
    · specialize ih h
      cases hc : createStep unit doc imgs layerName fc j with
      | error e => rfl
      | ok bp =>
        cases hrest : createLoop unit doc imgs layerName fc rest with
        | error e => rfl
        | ok ps =>
          rw [hrest] at ih
          simp [Except.isOk, Except.toBool] at ih

end pdfocr

/-- C10: `modifyExistingPDF` discards the error value of `drawOCRLayer`, so
Operation A's page modification always succeeds regardless of the rate of
encoding fallbacks, while `AssembleWithOCR` (Operation B, started at page 1
with enough images) aborts whenever some page exceeds the encoding-fallback
threshold. -/
theorem C10_threshold_ignored_by_modify_fatal_for_assemble :
    (∀ (unit : String → ℚ) (doc : hocr.HOCR) (startFromPage : Int)
        (layerName : String) (fc : pdfocr.FontConfig),
      (pdfocr.modifyExistingPDF unit doc startFromPage layerName fc).isOk = true)
    ∧ (∀ (unit : String → ℚ) (doc : hocr.HOCR) (imgs : List pdfocr.Img)
        (config : pdfocr.OCRConfig) (i : Nat),
      i < doc.pages.length → doc.pages.length ≤ imgs.length →
      config.startPage = 1 →
      pdfocr.encodingThresholdExceeded (doc.pages.getD i {}) = true →
      (pdfocr.AssembleWithOCR unit doc imgs config).isOk = false) := by
  constructor
  · intro unit doc startFromPage layerName fc
    rfl
  · intro unit doc imgs config i hi himg hsp hth
    unfold pdfocr.AssembleWithOCR
    split
    · simp [Except.isOk, Except.toBool]
    · split
      · simp [Except.isOk, Except.toBool]
      · split
        · simp [Except.isOk, Except.toBool]
        · split
          · simp [Except.isOk, Except.toBool]
          · cases hval : pdfocr.validateImages imgs 0 with
            | some e => simp [Except.isOk, Except.toBool]
            | none =>
              have hloop : (pdfocr.createPDFFromImage unit doc imgs
                  config.startPage config.layerName config.font).isOk = false := by
                unfold pdfocr.createPDFFromImage
                apply pdfocr.createLoop_error_of_mem unit doc imgs
                  config.layerName config.font _ i _ hth
                rw [hsp]
                have h0 : ((1 : Int) - 1).toNat = 0 := rfl
                rw [h0, List.drop_zero, List.mem_range]
                omega
              cases hcp : pdfocr.createPDFFromImage unit doc imgs
                  config.startPage config.layerName config.font with
              | error e => simp [Except.isOk, Except.toBool]
              | ok ps =>
                rw [hcp] at hloop
                simp [Except.isOk, Except.toBool] at hloop

/-- A one-page document whose only word cannot be encoded to ISO-8859-1. -/
def docBadEncoding : hocr.HOCR :=
  { pages := [{ bbox := ⟨0, 0, 612, 792⟩, lines := [{ words := [euroWord] }] }] }

/-- Witness for C10 at a concrete input: with a 100% encoding-fallback page,
Operation B aborts while Operation A's page modification succeeds. -/
theorem C10_threshold_ignored_by_modify_fatal_for_assemble_witness :
    (pdfocr.AssembleWithOCR (fun _ => 1) docBadEncoding [{}] {}).isOk = false ∧
      (pdfocr.modifyExistingPDF (fun _ => 1) docBadEncoding 1 "OCR Text" {}).isOk
        = true :=
  ⟨C10_threshold_ignored_by_modify_fatal_for_assemble.2 (fun _ => 1)
      docBadEncoding [{}] {} 0 (by decide) (by decide) rfl (by decide),
    C10_threshold_ignored_by_modify_fatal_for_assemble.1 (fun _ => 1)
      docBadEncoding 1 "OCR Text" {}⟩

namespace pdfocr

theorem modifyLoop_length (unit : String → ℚ) (startFromPage : Int)
    (layerName : String) (fc : FontConfig) (i : Nat) (ps : List hocr.Page) :
    (modifyLoop unit startFromPage layerName fc i ps).length = ps.length := by
  induction ps generalizing i with
  | nil => rfl
  | cons p t ih => simp [modifyLoop, ih]

end pdfocr

/-- C2: when OCR detection reports an existing OCR layer, `ApplyOCR` with
Strict and without Force aborts with the existing-layer error before any
page is modified and produces no output; in the other three Strict/Force
combinations it proceeds, returns the modified pages, and records the
existing-layer warning. -/
theorem C2_strict_force_policy (unit : String → ℚ) (pdf : pdfocr.PDFData)
    (doc : hocr.HOCR) (config : pdfocr.OCRConfig)
    (hpdf : pdf.isEmpty = false) (hpages : doc.pages.length ≠ 0)
    (hsp : ¬ config.startPage < 1)
    (hdet : (pdfocr.DetectOCR pdf config).hasOCR = true) :
    (config.strict = true → config.force = false →
      pdfocr.ApplyOCR unit pdf doc config =
        .error (pdfocr.fileAlreadyHasOCRMsg
            (pdfocr.DetectOCR pdf config).layerInfo.ocrLayerName ++
          " - set Force option to override"))
    ∧ ((config.strict = false ∨ config.force = true) →
      ∃ r, pdfocr.ApplyOCR unit pdf doc config = .ok r ∧
        pdfocr.fileAlreadyHasOCRMsg
            (pdfocr.DetectOCR pdf config).layerInfo.ocrLayerName ∈ r.warnings ∧
        r.pages.length = doc.pages.length) := by
  constructor
  · intro hs hf
    unfold pdfocr.ApplyOCR
    simp only [hpdf, Bool.false_eq_true, if_false, hpages, hsp, ite_false,
      hdet, if_true, ite_true, eq_self_iff_true, hs, hf,
      pdfocr.modifyExistingPDF]
    simp [List.headD]
  · intro hor
    unfold pdfocr.ApplyOCR
    simp only [hpdf, Bool.false_eq_true, if_false, hpages, hsp, ite_false,
      hdet, if_true, ite_true, eq_self_iff_true, pdfocr.modifyExistingPDF]
    have hcond : ¬ (¬ ([pdfocr.fileAlreadyHasOCRMsg
        (pdfocr.DetectOCR pdf config).layerInfo.ocrLayerName] : List String).isEmpty
          = true ∧ config.strict = true ∧ ¬ config.force = true) := by
      rcases hor with h | h
      · intro hc
        rw [h] at hc
        exact Bool.false_ne_true hc.2.1
      · intro hc
        exact hc.2.2 h
    rw [if_neg hcond]
    refine ⟨_, rfl, ?_, ?_⟩
    · exact List.mem_append.2 (Or.inr (List.mem_singleton.2 rfl))
    · exact pdfocr.modifyLoop_length unit config.startPage config.layerName
        config.font 0 doc.pages

/-- A PDF whose extracted layer names contain exactly the configured base
layer name. -/
def pdfWithOCRLayer : pdfocr.PDFData :=
  { layers := ["OCR Text"] }

/-- A minimal one-page document. -/
def docOnePage : hocr.HOCR :=
  { pages := [{ bbox := ⟨0, 0, 612, 792⟩ }] }

/-- Witness for C2 at a concrete input: with a detected `"OCR Text"` layer,
Strict without Force aborts with the existing-layer error. -/
theorem C2_strict_force_policy_witness :
    pdfocr.ApplyOCR (fun _ => 1) pdfWithOCRLayer docOnePage { strict := true } =
      .error (pdfocr.fileAlreadyHasOCRMsg
          (pdfocr.DetectOCR pdfWithOCRLayer
            { strict := true }).layerInfo.ocrLayerName ++
        " - set Force option to override") :=
  (C2_strict_force_policy (fun _ => 1) pdfWithOCRLayer docOnePage
    { strict := true } rfl (by decide) (by decide) (by decide)).1 rfl rfl

namespace pdfocr

open gostr

/-- The hard two-tier test of `CheckExistingOCRLayers`: exact equality with
the base name, or a match of the lenient page pattern. -/
def hardMatch (base layer : String) : Bool :=
  layer = base ∨ pageLayerMatch base layer

/-- The soft test of `CheckExistingOCRLayers`: the lowercased name contains
`"ocr"` and the name does not have the base name as a prefix. -/
def softOCRName (base layer : String) : Bool :=
  containsSub (toLowerGo layer) "ocr" ∧ ¬ hasPrefixGo layer base

theorem checkOCRLoop_characterization (base : String) (ls : List String) :
    (∀ l, ls.find? (hardMatch base) = some l →
      (checkOCRLoop base ls).hasOCRLayer = true ∧
        (checkOCRLoop base ls).ocrLayerName = l)
    ∧ (ls.find? (hardMatch base) = none →
      (checkOCRLoop base ls).hasOCRLayer = false ∧
        (checkOCRLoop base ls).warnings =
          (ls.filter (softOCRName base)).map mightContainOCRWarning) := by
  induction ls with
  | nil =>
    constructor
    · intro l hl
      simp [List.find?] at hl
    · intro _
      exact ⟨rfl, rfl⟩
  | cons x rest ih =>
    by_cases hxb : x = base
    · have hhm : hardMatch base x = true := by simp [hardMatch, hxb]
      have hfind : (x :: rest).find? (hardMatch base) = some x := by
        simp [List.find?, hhm]
      constructor
      · intro l hl
        rw [hfind] at hl
        injection hl with hl
        subst hl
        unfold checkOCRLoop
        rw [if_pos hxb]
        exact ⟨rfl, rfl⟩
      · intro hl
        rw [hfind] at hl
        cases hl
    · by_cases hxp : pageLayerMatch base x = true
      · have hhm : hardMatch base x = true := by simp [hardMatch, hxp]
        have hfind : (x :: rest).find? (hardMatch base) = some x := by
          simp [List.find?, hhm]
        constructor
        · intro l hl
          rw [hfind] at hl
          injection hl with hl
          subst hl
          unfold checkOCRLoop
          rw [if_neg hxb, if_pos hxp]
          exact ⟨rfl, rfl⟩
        · intro hl
          rw [hfind] at hl
          cases hl
      · have hhm : hardMatch base x = false := by
          simp [hardMatch, hxb]
          simpa using hxp
        have hfind : (x :: rest).find? (hardMatch base) =
            rest.find? (hardMatch base) := by
          simp [List.find?, hhm]
        have hloop : checkOCRLoop base (x :: rest) =
            (if containsSub (toLowerGo x) "ocr" ∧ ¬ hasPrefixGo x base then
              { checkOCRLoop base rest with warnings :=
                  (mightContainOCRWarning x :: (checkOCRLoop base rest).warnings) }
            else checkOCRLoop base rest) := by
          conv_lhs => rw [checkOCRLoop]
          rw [if_neg hxb, if_neg hxp]
        constructor
        · intro l hl
          rw [hfind] at hl
          have h1 := ih.1 l hl
          rw [hloop]
          by_cases hc : containsSub (toLowerGo x) "ocr" ∧ ¬ hasPrefixGo x base
          · rw [if_pos hc]
            exact h1
          · rw [if_neg hc]
            exact h1
        · intro hl
          rw [hfind] at hl
          have h1 := ih.2 hl
          rw [hloop]
          by_cases hc : containsSub (toLowerGo x) "ocr" ∧ ¬ hasPrefixGo x base
          · have hs : softOCRName base x = true := by
              simp only [softOCRName]
              simpa using hc
            rw [if_pos hc]
            refine ⟨h1.1, ?_⟩
            simp only [List.filter_cons, hs, if_true, List.map_cons]
            exact congrArg (mightContainOCRWarning x :: ·) h1.2
          · have hs : softOCRName base x = false := by
              simp only [softOCRName]
              simpa using hc
            rw [if_neg hc]
            refine ⟨h1.1, ?_⟩
            simp only [List.filter_cons, hs, Bool.false_eq_true, if_false,
              ite_false]
            exact h1.2

end pdfocr

/-- C3 amended: for every PDF and base layer name, the first detected name
(after first-seen deduplication) equal to the base or matching the lenient
page pattern `base`, optional regexp whitespace, `(Page`, optional
whitespace, digits, arbitrary tail, sets `HasOCRLayer` and is recorded in
`OCRLayerName`; when no name passes that hard test, the flag stays false and
the warnings are exactly the names that contain `"ocr"` case-insensitively
and do not have the base name as a prefix, in order. -/
theorem C3_layer_two_tier_amended (pdf : pdfocr.PDFData) (base : String)
    (hpdf : pdf.isEmpty = false) :
    ∀ r, pdfocr.CheckExistingOCRLayers pdf base = .ok r →
      ((∀ l, (pdfocr.dedupFirstSeen pdf.layers).find? (pdfocr.hardMatch base)
          = some l → r.hasOCRLayer = true ∧ r.ocrLayerName = l)
      ∧ ((pdfocr.dedupFirstSeen pdf.layers).find? (pdfocr.hardMatch base)
          = none → r.hasOCRLayer = false ∧
            r.warnings = ((pdfocr.dedupFirstSeen pdf.layers).filter
              (pdfocr.softOCRName base)).map pdfocr.mightContainOCRWarning)) := by
  intro r hr
  unfold pdfocr.CheckExistingOCRLayers pdfocr.detectPDFLayers at hr
  rw [hpdf] at hr
  simp only [Bool.false_eq_true, if_false, ite_false] at hr
  have hr' : r = { pdfocr.checkOCRLoop base (pdfocr.dedupFirstSeen pdf.layers)
      with layers := pdfocr.dedupFirstSeen pdf.layers } := by
    cases hr
    rfl
  subst hr'
  have h := pdfocr.checkOCRLoop_characterization base
    (pdfocr.dedupFirstSeen pdf.layers)
  exact ⟨fun l hl => h.1 l hl, fun hl => h.2 hl⟩

/-- Counterexample for C3 as frozen: the layer name `"OCR Text Backup"`
contains `"ocr"` case-insensitively and is neither the base name nor a page
variant, yet `CheckExistingOCRLayers` records no warning for it, because the
soft branch excludes every name that has the base name as a prefix. -/
theorem C3_layer_two_tier_counterexample :
    gostr.containsSub (gostr.toLowerGo "OCR Text Backup") "ocr" = true ∧
      pdfocr.hardMatch "OCR Text" "OCR Text Backup" = false ∧
      pdfocr.CheckExistingOCRLayers { layers := ["OCR Text Backup"] }
          "OCR Text" =
        .ok { layers := ["OCR Text Backup"], hasOCRLayer := false,
              ocrLayerName := "", warnings := [] } := by
  refine ⟨by decide, by decide, by rfl⟩

/-- The concrete result of the layer check on `["My OCR Notes", "OCR Text"]`
with base name `"OCR Text"`. -/
def c3WitnessResult : pdfocr.LayerCheckResult :=
  { pdfocr.checkOCRLoop "OCR Text"
      (pdfocr.dedupFirstSeen ["My OCR Notes", "OCR Text"]) with
    layers := pdfocr.dedupFirstSeen ["My OCR Notes", "OCR Text"] }

/-- Witness for C3 at a concrete input: the exact base name sets the flag
and is recorded, while the soft `"My OCR Notes"` name only warns. -/
theorem C3_layer_two_tier_amended_witness :
    c3WitnessResult.hasOCRLayer = true ∧
      c3WitnessResult.ocrLayerName = "OCR Text" :=
  (C3_layer_two_tier_amended { layers := ["My OCR Notes", "OCR Text"] }
    "OCR Text" rfl c3WitnessResult rfl).1 "OCR Text" (by decide)

namespace pdfocr

theorem validateImages_none (imgs : List Img) (k : Nat)
    (h : ∀ img ∈ imgs, img.size ≠ 0 ∧ img.format.isSome) :
    validateImages imgs k = none := by
  induction imgs generalizing k with
  | nil => rfl
  | cons img rest ih =>
    have h1 := h img (List.mem_cons_self img rest)
    unfold validateImages
    rw [if_neg h1.1]
    rcases Option.isSome_iff_exists.1 h1.2 with ⟨f, hf⟩
    rw [show detectImageType img = .ok (gostr.toUpperGo f) by
      unfold detectImageType
      rw [hf]]
    exact ih k.succ (fun i hi => h i (List.mem_cons_of_mem img hi))

theorem validateImages_some (imgs : List Img) (k : Nat)
    (h : ∃ img ∈ imgs, img.size = 0 ∨ img.format = none) :
    (validateImages imgs k).isSome = true := by
  induction imgs generalizing k with
  | nil =>
    rcases h with ⟨img, hmem, _⟩
    cases hmem
  | cons img rest ih =>
    unfold validateImages
    by_cases hz : img.size = 0
    · rw [if_pos hz]
      rfl
    · rw [if_neg hz]
      cases hdet : detectImageType img with
      | error e => rfl
      | ok t =>
        rcases h with ⟨i, hmem, hbad⟩
        rcases List.mem_cons.1 hmem with heq | hmem'
        · subst heq
          rcases hbad with hb | hb
          · exact absurd hb hz
          · unfold detectImageType at hdet
            rw [hb] at hdet
            cases hdet
        · exact ih k.succ ⟨i, hmem', hbad⟩

/-- The page built by a successful `createStep`. -/
def builtPageAt (unit : String → ℚ) (doc : hocr.HOCR) (layerName : String)
    (fc : FontConfig) (i : Nat) : BuiltPage :=
  let page := doc.pages.getD i {}
  let w := page.bbox.x2
  let h := page.bbox.y2
  ⟨i, page, w, h, i,
    (drawOCRLayerRaw unit fc page layerName ((i : Int) + 1)
      (fun x y => normalizeCoords x y w h w h)).1⟩

theorem createStep_ok (unit : String → ℚ) (doc : hocr.HOCR)
    (imgs : List Img) (layerName : String) (fc : FontConfig) (i : Nat)
    (hfmt : (imgs.getD i {}).format.isSome)
    (hth : encodingThresholdExceeded (doc.pages.getD i {}) = false) :
    createStep unit doc imgs layerName fc i =
      .ok (builtPageAt unit doc layerName fc i) := by
  simp only [createStep]
  rcases Option.isSome_iff_exists.1 hfmt with ⟨f, hf⟩
  rw [show detectImageType (imgs.getD i {}) = .ok (gostr.toUpperGo f) by
    unfold detectImageType
    rw [hf]]
  rw [drawOCRLayer_eq_ok_of_not_threshold _ _ _ _ _ _ hth]
  rfl

theorem createLoop_ok (unit : String → ℚ) (doc : hocr.HOCR)
    (imgs : List Img) (layerName : String) (fc : FontConfig)
    (idxs : List Nat)
    (h : ∀ i ∈ idxs, (imgs.getD i {}).format.isSome ∧
      encodingThresholdExceeded (doc.pages.getD i {}) = false) :
    createLoop unit doc imgs layerName fc idxs =
      .ok (idxs.map (builtPageAt unit doc layerName fc)) := by
  induction idxs with
  | nil => rfl
  | cons i rest ih =>
    have h1 := h i (List.mem_cons_self i rest)
    unfold createLoop
    rw [createStep_ok unit doc imgs layerName fc i h1.1 h1.2,
      ih (fun j hj => h j (List.mem_cons_of_mem i hj))]
    rfl

theorem getD_mem_of_lt {α : Type} (l : List α) (i : Nat) (d : α)
    (h : i < l.length) : l.getD i d ∈ l := by
  rw [List.getD_eq_getElem?_getD, List.getElem?_eq_getElem h]
  exact List.getElem_mem h

theorem map_getD_range {α : Type} (l : List α) (d : α) :
    (List.range l.length).map (fun i => l.getD i d) = l := by
  apply List.ext_getElem
  · simp
  · intro i h1 h2
    simp [List.getD_eq_getElem?_getD, List.getElem?_eq_getElem h2]

end pdfocr

/-- C5 amended: with StartPage = 1, N ≥ 1 model pages, at least N supplied
images that all decode, and no page over the encoding-fallback threshold,
`AssembleWithOCR` succeeds with exactly N pages carrying the model pages in
their original order; with fewer images than pages, or with any empty or
undecodable image, it fails and produces no output.  (As frozen the claim
also covers StartPage > 1 and threshold-exceeding pages, where the code
emits fewer pages or aborts — see the counterexample.) -/
theorem C5_assemble_page_count_and_order (unit : String → ℚ)
    (doc : hocr.HOCR) (imgs : List pdfocr.Img) (config : pdfocr.OCRConfig)
    (hsp : config.startPage = 1) (hn : 0 < doc.pages.length)
    (himg : doc.pages.length ≤ imgs.length)
    (hgood : ∀ img ∈ imgs, img.size ≠ 0 ∧ img.format.isSome)
    (hth : ∀ p ∈ doc.pages, pdfocr.encodingThresholdExceeded p = false) :
    (∃ out, pdfocr.AssembleWithOCR unit doc imgs config = .ok out ∧
      out.length = doc.pages.length ∧ out.map (·.page) = doc.pages)
    ∧ (∀ imgs2 : List pdfocr.Img, imgs2.length < doc.pages.length →
      (pdfocr.AssembleWithOCR unit doc imgs2 config).isOk = false)
    ∧ (∀ imgs2 : List pdfocr.Img,
      (∃ img ∈ imgs2, img.size = 0 ∨ img.format = none) →
      (pdfocr.AssembleWithOCR unit doc imgs2 config).isOk = false) := by
  refine ⟨?_, ?_, ?_⟩
  · unfold pdfocr.AssembleWithOCR
    rw [if_neg (by omega), if_neg (by omega), if_neg (by rw [hsp]; decide),
      if_neg (by omega), pdfocr.validateImages_none imgs 0 hgood]
    unfold pdfocr.createPDFFromImage
    have hb : min doc.pages.length imgs.length = doc.pages.length :=
      Nat.min_eq_left himg
    have h0 : ((config.startPage - 1).toNat) = 0 := by
      rw [hsp]
      rfl
    rw [hb, h0]
    simp only [List.drop_zero]
    rw [pdfocr.createLoop_ok unit doc imgs config.layerName config.font _
      (fun i hi => ?_)]
    · refine ⟨_, rfl, ?_, ?_⟩
      · simp
      · rw [List.map_map]
        have : (fun bp : pdfocr.BuiltPage => bp.page) ∘
            pdfocr.builtPageAt unit doc config.layerName config.font =
            fun i => doc.pages.getD i {} := by
          funext i
          rfl
        rw [this, pdfocr.map_getD_range]
    · rw [List.mem_range] at hi
      constructor
      · exact (hgood (imgs.getD i {}) (pdfocr.getD_mem_of_lt imgs i {} (by omega))).2
      · exact hth (doc.pages.getD i {}) (pdfocr.getD_mem_of_lt doc.pages i {} hi)
  · intro imgs2 hlt
    unfold pdfocr.AssembleWithOCR
    rw [if_neg (by omega)]
    by_cases hz : imgs2.length = 0
    · rw [if_pos hz]
      rfl
    · rw [if_neg hz, if_neg (by rw [hsp]; decide), if_pos hlt]
      rfl
  · intro imgs2 hbad
    unfold pdfocr.AssembleWithOCR
    rw [if_neg (by omega)]
    by_cases hz : imgs2.length = 0
    · rw [if_pos hz]
      rfl
    · rw [if_neg hz, if_neg (by rw [hsp]; decide)]
      by_cases hlt : imgs2.length < doc.pages.length
      · rw [if_pos hlt]
        rfl
      · rw [if_neg hlt]
        have hv := pdfocr.validateImages_some imgs2 0 hbad
        rcases Option.isSome_iff_exists.1 hv with ⟨e, he⟩
        rw [he]
        rfl

/-- A two-page document with no words. -/
def docTwoPages : hocr.HOCR :=
  { pages := [{ bbox := ⟨0, 0, 612, 792⟩ }, { bbox := ⟨0, 0, 612, 792⟩ }] }

/-- Counterexample for C5 as frozen: with two model pages, two decodable
images, and StartPage = 2 (a configuration `AssembleWithOCR` accepts), the
output has one page, not two — the loop of `createPDFFromImage` starts at
index `StartPage - 1`. -/
theorem C5_assemble_page_count_counterexample :
    docTwoPages.pages.length = 2 ∧
      Except.map List.length
          (pdfocr.AssembleWithOCR (fun _ => 1) docTwoPages [{}, {}]
            { startPage := 2 }) = Except.ok 1 :=
  ⟨rfl, rfl⟩

/-- Witness for C5 at a concrete input: one page, one good image, default
configuration. -/
theorem C5_assemble_page_count_and_order_witness :
    ∃ out, pdfocr.AssembleWithOCR (fun _ => 1) docOnePage [{}] {} = .ok out ∧
      out.length = docOnePage.pages.length ∧
      out.map (·.page) = docOnePage.pages :=
  (C5_assemble_page_count_and_order (fun _ => 1) docOnePage [{}] {} rfl
    (by decide) (by decide) (by decide) (by decide)).1

namespace hocr

/-- The page test of `findPages`: a `div` element with a `class` attribute
containing `"ocr_page"`. -/
def isOcrPageNode (n : HNode) : Bool :=
  match n with
  | .elem tag attrs _ =>
    tag = "div" ∧ attrs.any (fun a => a.1 = "class" ∧ gostr.containsSub a.2 "ocr_page")
  | .text _ => false

mutual

/-- Presence of a page-marker element anywhere in a tree. -/
def hasOcrPageDivN : HNode → Bool
  | .elem tag attrs children =>
    isOcrPageNode (.elem tag attrs children) ∨ hasOcrPageDivL children
  | .text _ => false

/-- Presence of a page-marker element in a forest. -/
def hasOcrPageDivL : List HNode → Bool
  | [] => false
  | c :: cs => hasOcrPageDivN c ∨ hasOcrPageDivL cs

end

mutual

theorem findPagesN_nil (n : HNode) (h : hasOcrPageDivN n = false) :
    findPagesN n = [] := by
  cases n with
  | text s => rfl
  | elem tag attrs children =>
    unfold hasOcrPageDivN at h
    have h2 : isOcrPageNode (.elem tag attrs children) = false ∧
        hasOcrPageDivL children = false := by
      constructor
      · by_contra hc
        rw [Bool.not_eq_false] at hc
        rw [show isOcrPageNode (HNode.elem tag attrs children) = true from hc] at h
        simp at h
      · by_contra hc
        rw [Bool.not_eq_false] at hc
        rw [hc] at h
        simp at h
    unfold findPagesN
    rw [if_neg ?_]
    · exact findPagesL_nil children h2.2
    · have := h2.1
      simp only [isOcrPageNode, decide_eq_false_iff_not] at this
      exact this

theorem findPagesL_nil (l : List HNode) (h : hasOcrPageDivL l = false) :
    findPagesL l = [] := by
  cases l with
  | nil => rfl
  | cons c cs =>
    unfold hasOcrPageDivL at h
    have h2 : hasOcrPageDivN c = false ∧ hasOcrPageDivL cs = false := by
      constructor
      · by_contra hc
        rw [Bool.not_eq_false] at hc
        rw [hc] at h
        simp at h
      · by_contra hc
        rw [Bool.not_eq_false] at hc
        rw [hc] at h
        simp at h
    unfold findPagesL
    rw [findPagesN_nil c h2.1, findPagesL_nil cs h2.2]
    rfl

end

end hocr

/-- C9: any input string whose markup tree contains zero `ocr_page` division
elements makes `ParseHOCR` return the malformed-input error together with a
document holding zero pages. -/
theorem C9_zero_pages_malformed_input (data : String)
    (h : hocr.hasOcrPageDivN (hocr.htmlParse data) = false) :
    (hocr.ParseHOCR data).2 = some "no ocr_page elements found in HOCR data" ∧
      (hocr.ParseHOCR data).1.pages = [] := by
  have hfp := hocr.findPagesN_nil _ h
  simp only [hocr.ParseHOCR, hocr.parseHOCRTree, hfp]
  simp

/-- Witness for C9 at a concrete input: a well-formed HTML document with no
page-marker element. -/
theorem C9_zero_pages_malformed_input_witness :
    (hocr.ParseHOCR "<html><body><p>hello</p></body></html>").2 =
        some "no ocr_page elements found in HOCR data" ∧
      (hocr.ParseHOCR "<html><body><p>hello</p></body></html>").1.pages = [] :=
  C9_zero_pages_malformed_input "<html><body><p>hello</p></body></html>" (by rfl)

namespace hocr

/-- Word texts of a page across all attachment points, one projection the
round-trip contract compares. -/
def pageWordTexts (p : Page) : List String :=
  p.allWords.map (·.text)

/-- Word texts of every page of a document, in order. -/
def docWordTexts (doc : HOCR) : List (List String) :=
  doc.pages.map pageWordTexts

/-- Word bounding boxes of a page across all attachment points. -/
def pageWordBoxes (p : Page) : List BoundingBox :=
  p.allWords.map (·.bbox)

end hocr

/-- An hOCR input whose only word's text is the four characters `&lt;`,
written in the input as the escaped sequence `&amp;lt;`. -/
def roundTripInput : String :=
  "<html>\n<head>\n    <title>T</title>\n</head>\n<body>\n" ++
  "    <div class='ocr_page' id='page_1' title='bbox 0 0 612 792; ppageno 1'>\n" ++
  "        <span class='ocr_line' id='line_1' title='bbox 10 20 110 40'>" ++
  "<span class='ocrx_word' id='word_1' title='bbox 10 20 110 40'>&amp;lt;</span></span>\n" ++
  "    </div>\n</body>\n</html>\n"

/-- A well-formed one-page/one-word hOCR input with plain ASCII word text. -/
def roundTripSafeInput : String :=
  "<html>\n<head>\n    <title>T</title>\n</head>\n<body>\n" ++
  "    <div class='ocr_page' id='page_1' title='bbox 0 0 612 792; ppageno 1'>\n" ++
  "        <span class='ocr_line' id='line_1' title='bbox 10 20 110 40'>" ++
  "<span class='ocrx_word' id='word_1' title='bbox 10 20 110 40; x_wconf 95'>Hello</span></span>\n" ++
  "    </div>\n</body>\n</html>\n"


set_option maxRecDepth 400000 in
set_option maxHeartbeats 4000000 in
theorem roundtrip_safe_parse_err :
    (hocr.ParseHOCR roundTripSafeInput).2 = none := rfl

set_option maxRecDepth 400000 in
set_option maxHeartbeats 4000000 in
theorem roundtrip_safe_texts :
    hocr.docWordTexts (hocr.ParseHOCR roundTripSafeInput).1 = [["Hello"]] := rfl

set_option maxRecDepth 400000 in
set_option maxHeartbeats 4000000 in
theorem roundtrip_safe_texts_preserved :
    hocr.docWordTexts (hocr.ParseHOCR (hocr.GenerateHOCRDocument
      (hocr.ParseHOCR roundTripSafeInput).1)).1 = [["Hello"]] := rfl

set_option maxRecDepth 400000 in
set_option maxHeartbeats 4000000 in
theorem roundtrip_bad_parse_err :
    (hocr.ParseHOCR roundTripInput).2 = none := rfl

set_option maxRecDepth 400000 in
set_option maxHeartbeats 4000000 in
theorem roundtrip_bad_texts :
    hocr.docWordTexts (hocr.ParseHOCR roundTripInput).1 = [["&lt;"]] := rfl

set_option maxRecDepth 400000 in
set_option maxHeartbeats 4000000 in
theorem roundtrip_bad_regen_err :
    (hocr.ParseHOCR (hocr.GenerateHOCRDocument
      (hocr.ParseHOCR roundTripInput).1)).2 = none := rfl

set_option maxRecDepth 400000 in
set_option maxHeartbeats 4000000 in
theorem roundtrip_bad_regen_texts :
    hocr.docWordTexts (hocr.ParseHOCR (hocr.GenerateHOCRDocument
      (hocr.ParseHOCR roundTripInput).1)).1 = [["<"]] := rfl

set_option maxRecDepth 400000 in
set_option maxHeartbeats 4000000 in
theorem roundtrip_bad_regen_pagecount :
    (hocr.ParseHOCR (hocr.GenerateHOCRDocument
      (hocr.ParseHOCR roundTripInput).1)).1.pages.length = 1 := rfl

set_option maxRecDepth 400000 in
set_option maxHeartbeats 4000000 in
theorem roundtrip_bad_pagecount :
    (hocr.ParseHOCR roundTripInput).1.pages.length = 1 := rfl

set_option maxRecDepth 400000 in
set_option maxHeartbeats 4000000 in
theorem roundtrip_bad_regen_boxes :
    (hocr.ParseHOCR (hocr.GenerateHOCRDocument
      (hocr.ParseHOCR roundTripInput).1)).1.pages.map hocr.pageWordBoxes =
      [[⟨10, 20, 110, 40⟩]] := rfl

set_option maxRecDepth 400000 in
set_option maxHeartbeats 4000000 in
theorem roundtrip_bad_boxes :
    (hocr.ParseHOCR roundTripInput).1.pages.map hocr.pageWordBoxes =
      [[⟨10, 20, 110, 40⟩]] := rfl

/-- C1: the parse→generate round trip preserves page count, word text and
bounding boxes on a plain one-page/one-word document, but violates the
contract on an accepted input whose word text contains the characters
`&lt;`: the generator emits the text with no escaping, so reparsing the
generated document yields the word text `<` instead of `&lt;`.  Page count
and bounding boxes survive even on the failing input; the word text does
not. -/
theorem C1_roundtrip_word_text_not_preserved :
    ((hocr.ParseHOCR roundTripSafeInput).2 = none ∧
      hocr.docWordTexts (hocr.ParseHOCR roundTripSafeInput).1 = [["Hello"]] ∧
      hocr.docWordTexts (hocr.ParseHOCR (hocr.GenerateHOCRDocument
        (hocr.ParseHOCR roundTripSafeInput).1)).1 = [["Hello"]])
    ∧ ((hocr.ParseHOCR roundTripInput).2 = none ∧
      hocr.docWordTexts (hocr.ParseHOCR roundTripInput).1 = [["&lt;"]] ∧
      (hocr.ParseHOCR (hocr.GenerateHOCRDocument
        (hocr.ParseHOCR roundTripInput).1)).2 = none ∧
      hocr.docWordTexts (hocr.ParseHOCR (hocr.GenerateHOCRDocument
        (hocr.ParseHOCR roundTripInput).1)).1 = [["<"]] ∧
      (hocr.ParseHOCR (hocr.GenerateHOCRDocument
        (hocr.ParseHOCR roundTripInput).1)).1.pages.length = 1 ∧
      (hocr.ParseHOCR roundTripInput).1.pages.length = 1 ∧
      (hocr.ParseHOCR (hocr.GenerateHOCRDocument
        (hocr.ParseHOCR roundTripInput).1)).1.pages.map hocr.pageWordBoxes =
        [[⟨10, 20, 110, 40⟩]] ∧
      (hocr.ParseHOCR roundTripInput).1.pages.map hocr.pageWordBoxes =
        [[⟨10, 20, 110, 40⟩]]) :=
  ⟨⟨roundtrip_safe_parse_err, roundtrip_safe_texts, roundtrip_safe_texts_preserved⟩,
    roundtrip_bad_parse_err, roundtrip_bad_texts, roundtrip_bad_regen_err,
    roundtrip_bad_regen_texts, roundtrip_bad_regen_pagecount,
    roundtrip_bad_pagecount, roundtrip_bad_regen_boxes, roundtrip_bad_boxes⟩

/-- A word whose text contains a character special to HTML. -/
def markupWord : hocr.Word :=
  { text := "a<b", bbox := ⟨10, 20, 110, 40⟩ }

/-- A line holding that word. -/
def markupLine : hocr.Line :=
  { bbox := ⟨10, 20, 110, 40⟩, words := [markupWord] }

/-- A one-page model whose only word's text contains a character special to
HTML. -/
def docMarkupWord : hocr.HOCR :=
  { pages := [{ bbox := ⟨0, 0, 612, 792⟩, lines := [markupLine] }] }

set_option maxRecDepth 400000 in
set_option maxHeartbeats 1000000 in
/-- C4: the markup generator performs no escaping — a word text containing
`<` appears verbatim in the generated bytes and its escaped form does not
appear, because `GenerateHOCRDocument` renders `{{ $word.Text }}` through
`text/template`, which does not HTML-escape. -/
theorem C4_output_not_escaped :
    gostr.containsSub (hocr.GenerateHOCRDocument docMarkupWord) "a<b" = true ∧
      gostr.containsSub (hocr.GenerateHOCRDocument docMarkupWord) "a&lt;b"
        = false :=
  ⟨rfl, rfl⟩
